import Mathlib

/-!
Verification of the etherspy packet codecs (discv4 / discv5).

The Go sources are shallowly embedded: byte buffers are `List Nat`
(each element one byte), Go slices `b[i:j]` become `take`/`drop`,
fallible paths return `Except`/`Option`, and the external library
primitives (keccak256, secp256k1 recovery, AES-CTR keystream) are
taken as function parameters, since their implementations live outside
this repository.  Machine integers that matter (uint16 sizes) are read
exactly as the Go `binary.Read`/`rlp` code reads them, byte by byte.
-/

set_option maxHeartbeats 1000000

deriving instance DecidableEq for Except

/-- Minimal big-endian byte string of a natural number (no leading zero). -/
def beBytes : Nat → List Nat
  | 0 => []
  | n + 1 => beBytes ((n + 1) / 256) ++ [(n + 1) % 256]
decreasing_by exact Nat.div_lt_self (Nat.succ_pos n) (by omega)

/-- Big-endian value of a byte string. -/
def beVal (bs : List Nat) : Nat := bs.foldl (fun a b => a * 256 + b) 0

namespace Rlp

/-- Decode errors of the go-ethereum rlp stream decoder (the constructors
mirror `rlp: ...` error values; exact messages are irrelevant here). -/
inductive Err where
  | eol
  | expectedString
  | expectedList
  | canonSize
  | canonInt
  | uintOverflow
  | valueTooLarge
  | arraySizeMismatch
  | tooMany
deriving DecidableEq, Repr

/-- Result of `Stream.readKind`: a single byte value, a string item, or a
list item, the latter two with their header length and payload length. -/
inductive Head where
  | single (b : Nat)
  | str (headLen payloadLen : Nat)
  | list (headLen payloadLen : Nat)
deriving DecidableEq, Repr

/-- Embeds `Stream.readKind`: classify the item starting at the front of
`bs` and compute header/payload lengths, with the canonical-size checks
the Go code performs on long forms. -/
def parseHead : List Nat → Except Err Head
  | [] => .error .eol
  | b :: rest =>
    if b < 0x80 then .ok (.single b)
    else if b ≤ 0xb7 then .ok (.str 1 (b - 0x80))
    else if b ≤ 0xbf then
      let sizeLen := b - 0xb7
      if rest.length < sizeLen then .error .valueTooLarge
      else
        let sz := rest.take sizeLen
        if sz.headD 0 = 0 then .error .canonSize
        else if beVal sz < 56 then .error .canonSize
        else .ok (.str (1 + sizeLen) (beVal sz))
    else if b ≤ 0xf7 then .ok (.list 1 (b - 0xc0))
    else
      let sizeLen := b - 0xf7
      if rest.length < sizeLen then .error .valueTooLarge
      else
        let sz := rest.take sizeLen
        if sz.headD 0 = 0 then .error .canonSize
        else if beVal sz < 56 then .error .canonSize
        else .ok (.list (1 + sizeLen) (beVal sz))

/-- Total byte size of an item (header plus payload). -/
def itemLen : Head → Nat
  | .single _ => 1
  | .str hl pl => hl + pl
  | .list hl pl => hl + pl

/-- Embeds `Stream.Raw`: the raw bytes of the next item, plus the rest. -/
def raw (bs : List Nat) : Except Err (List Nat × List Nat) := do
  let h ← parseHead bs
  if bs.length < itemLen h then .error .valueTooLarge
  else .ok (bs.take (itemLen h), bs.drop (itemLen h))

/-- Embeds `Stream.Bytes` (decoder for `[]byte` / `net.IP` fields). -/
def bytesItem (bs : List Nat) : Except Err (List Nat × List Nat) := do
  match ← parseHead bs with
  | .single b => .ok ([b], bs.drop 1)
  | .str hl pl =>
    if bs.length < hl + pl then .error .valueTooLarge
    else
      let payload := (bs.drop hl).take pl
      if pl = 1 ∧ payload.headD 0 < 0x80 then .error .canonSize
      else .ok (payload, bs.drop (hl + pl))
  | .list _ _ => .error .expectedString

/-- Embeds `Stream.uint` with a maximum width of `maxBytes` bytes
(`maxbits / 8` in Go), including the canonical-integer checks. -/
def uintItem (maxBytes : Nat) (bs : List Nat) : Except Err (Nat × List Nat) := do
  match ← parseHead bs with
  | .single b => .ok (b, bs.drop 1)
  | .str hl pl =>
    if maxBytes < pl then .error .uintOverflow
    else if bs.length < hl + pl then .error .valueTooLarge
    else
      let payload := (bs.drop hl).take pl
      if 2 ≤ pl ∧ payload.headD 1 = 0 then .error .canonInt
      else if 0 < pl ∧ beVal payload < 0x80 then .error .canonSize
      else .ok (beVal payload, bs.drop (hl + pl))
  | .list _ _ => .error .expectedString

/-- Embeds `decodeByteArray` for a `[n]byte` field: the payload must be
exactly `n` bytes. -/
def byteArrayItem (n : Nat) (bs : List Nat) : Except Err (List Nat × List Nat) := do
  match ← parseHead bs with
  | .single b => if n = 1 then .ok ([b], bs.drop 1) else .error .arraySizeMismatch
  | .str hl pl =>
    if pl ≠ n then .error .arraySizeMismatch
    else if bs.length < hl + pl then .error .valueTooLarge
    else
      let payload := (bs.drop hl).take pl
      if pl = 1 ∧ payload.headD 0 < 0x80 then .error .canonSize
      else .ok (payload, bs.drop (hl + pl))
  | .list _ _ => .error .expectedString

/-- Enter a list item: its payload bytes and the bytes after the item. -/
def listItem (bs : List Nat) : Except Err (List Nat × List Nat) := do
  match ← parseHead bs with
  | .list hl pl =>
    if bs.length < hl + pl then .error .valueTooLarge
    else .ok ((bs.drop hl).take pl, bs.drop (hl + pl))
  | _ => .error .expectedList

/-- Capture the remaining items of a list payload as raw values (the
decoder for a `rlp:"tail"` field).  `fuel` starts at the payload length;
each item consumes at least one byte, so the fuel never runs out. -/
def tailSeq : Nat → List Nat → Except Err (List (List Nat))
  | _, [] => .ok []
  | 0, _ :: _ => .error .eol
  | fuel + 1, b :: bs => do
    let (item, rest) ← raw (b :: bs)
    let items ← tailSeq fuel rest
    .ok (item :: items)

/-- Encoder header: short form below 56 payload bytes, else long form.
`base` is 0x80 for strings and 0xc0 for lists. -/
def encPayload (base : Nat) (payload : List Nat) : List Nat :=
  if payload.length < 56 then (base + payload.length) :: payload
  else (base + 55 + (beBytes payload.length).length) :: (beBytes payload.length ++ payload)

/-- Canonical RLP encoding of a byte string. -/
def encBytes (bs : List Nat) : List Nat :=
  match bs with
  | [b] => if b < 0x80 then [b] else encPayload 0x80 bs
  | _ => encPayload 0x80 bs

/-- Canonical RLP encoding of an unsigned integer. -/
def encUint (n : Nat) : List Nat := encBytes (beBytes n)

/-- Canonical RLP encoding of a list from its already-encoded items. -/
def encList (items : List (List Nat)) : List Nat := encPayload 0xc0 items.flatten

/-- A byte string that is exactly one well-formed RLP item. -/
def isItem (e : List Nat) : Bool :=
  match parseHead e with
  | .ok h => e.length = itemLen h
  | .error _ => false

end Rlp

namespace Discv4

/-- `macSize` from the Go source. -/
def macSize : Nat := 32

/-- `sigSize = crypto.SignatureLength` (65). -/
def sigSize : Nat := 65

/-- `headSize = macSize + sigSize`. -/
def headSize : Nat := macSize + sigSize

/-- The `PacketKind` constants `PacketPing` .. `PacketENRResponse`
(`iota + 1`). -/
def PacketPing : Nat := 1

/-- `PacketPong`. -/
def PacketPong : Nat := 2

/-- `PacketFindNode`. -/
def PacketFindNode : Nat := 3

/-- `PacketNeighbors`. -/
def PacketNeighbors : Nat := 4

/-- `PacketENRRequest` (declared in the source, but `Decode` has no
`case` for it). -/
def PacketENRRequest : Nat := 5

/-- `PacketENRResponse` (declared in the source, but `Decode` has no
`case` for it). -/
def PacketENRResponse : Nat := 6

/-- `rpcEndpoint`: IP bytes, UDP port, TCP port. -/
structure RpcEndpoint where
  ip : List Nat
  udp : Nat
  tcp : Nat
deriving DecidableEq, Repr

/-- `rpcNode`: an endpoint plus the 64-byte NodeID. -/
structure RpcNode where
  ip : List Nat
  udp : Nat
  tcp : Nat
  id : List Nat
deriving DecidableEq, Repr

/-- `Ping` with its `rlp:"tail"` slot (`From`/`To` are Lean keywords, so
the fields are named `fromEp`/`toEp`). -/
structure Ping where
  version : Nat
  fromEp : RpcEndpoint
  toEp : RpcEndpoint
  expiration : Nat
  rest : List (List Nat)
deriving DecidableEq, Repr

/-- `Pong` with its `rlp:"tail"` slot. -/
structure Pong where
  toEp : RpcEndpoint
  replyTok : List Nat
  expiration : Nat
  rest : List (List Nat)
deriving DecidableEq, Repr

/-- `FindNode` with its `rlp:"tail"` slot. -/
structure FindNode where
  target : List Nat
  expiration : Nat
  rest : List (List Nat)
deriving DecidableEq, Repr

/-- `Neighbors` with its `rlp:"tail"` slot. -/
structure Neighbors where
  nodes : List RpcNode
  expiration : Nat
  rest : List (List Nat)
deriving DecidableEq, Repr

/-- The decoded packet: one variant per `case` of the type switch. -/
inductive Packet where
  | ping (p : Ping)
  | pong (p : Pong)
  | findNode (p : FindNode)
  | neighbors (p : Neighbors)
deriving DecidableEq, Repr

/-- The type tag a variant was dispatched from. -/
def Packet.kindTag : Packet → Nat
  | .ping _ => 1
  | .pong _ => 2
  | .findNode _ => 3
  | .neighbors _ => 4

/-- rlp decoder for an `rpcEndpoint` struct (a nested list; no tail, so
the list must end exactly after the three fields). -/
def endpointItem (bs : List Nat) : Except Rlp.Err (RpcEndpoint × List Nat) := do
  let (payload, rest) ← Rlp.listItem bs
  let (ip, r1) ← Rlp.bytesItem payload
  let (udp, r2) ← Rlp.uintItem 2 r1
  let (tcp, r3) ← Rlp.uintItem 2 r2
  if r3.isEmpty then .ok (⟨ip, udp, tcp⟩, rest) else .error .tooMany

/-- rlp decoder for an `rpcNode` struct. -/
def nodeItem (bs : List Nat) : Except Rlp.Err (RpcNode × List Nat) := do
  let (payload, rest) ← Rlp.listItem bs
  let (ip, r1) ← Rlp.bytesItem payload
  let (udp, r2) ← Rlp.uintItem 2 r1
  let (tcp, r3) ← Rlp.uintItem 2 r2
  let (nid, r4) ← Rlp.byteArrayItem 64 r3
  if r4.isEmpty then .ok (⟨ip, udp, tcp, nid⟩, rest) else .error .tooMany

/-- rlp decoder for a `[]rpcNode` list payload.  `fuel` starts at the
payload length; each element consumes at least one byte. -/
def nodeSeq : Nat → List Nat → Except Rlp.Err (List RpcNode)
  | _, [] => .ok []
  | 0, _ :: _ => .error .eol
  | fuel + 1, b :: bs => do
    let (n, rest) ← nodeItem (b :: bs)
    let ns ← nodeSeq fuel rest
    .ok (n :: ns)

/-- `rlp.Decode` into a `Ping` (trailing bytes after the top-level list
are ignored by `Stream.Decode`). -/
def pingDecode (bs : List Nat) : Except Rlp.Err Ping := do
  let (payload, _) ← Rlp.listItem bs
  let (v, r1) ← Rlp.uintItem 8 payload
  let (f, r2) ← endpointItem r1
  let (t, r3) ← endpointItem r2
  let (e, r4) ← Rlp.uintItem 8 r3
  let rest ← Rlp.tailSeq r4.length r4
  .ok ⟨v, f, t, e, rest⟩

/-- `rlp.Decode` into a `Pong`. -/
def pongDecode (bs : List Nat) : Except Rlp.Err Pong := do
  let (payload, _) ← Rlp.listItem bs
  let (t, r1) ← endpointItem payload
  let (tok, r2) ← Rlp.bytesItem r1
  let (e, r3) ← Rlp.uintItem 8 r2
  let rest ← Rlp.tailSeq r3.length r3
  .ok ⟨t, tok, e, rest⟩

/-- `rlp.Decode` into a `FindNode` (`Target` is a `[64]byte` NodeID). -/
def findNodeDecode (bs : List Nat) : Except Rlp.Err FindNode := do
  let (payload, _) ← Rlp.listItem bs
  let (tg, r1) ← Rlp.byteArrayItem 64 payload
  let (e, r2) ← Rlp.uintItem 8 r1
  let rest ← Rlp.tailSeq r2.length r2
  .ok ⟨tg, e, rest⟩

/-- `rlp.Decode` into a `Neighbors`. -/
def neighborsDecode (bs : List Nat) : Except Rlp.Err Neighbors := do
  let (payload, _) ← Rlp.listItem bs
  let (nodesPayload, r1) ← Rlp.listItem payload
  let ns ← nodeSeq nodesPayload.length nodesPayload
  let (e, r2) ← Rlp.uintItem 8 r1
  let rest ← Rlp.tailSeq r2.length r2
  .ok ⟨ns, e, rest⟩

/-- The zero value of each variant, as allocated by `new(T)` in the type
switch (on an rlp decode error the Go code still returns the allocated
struct; the model returns it zero-valued). -/
def newPacket : Nat → Option Packet
  | 1 => some (.ping ⟨0, ⟨[], 0, 0⟩, ⟨[], 0, 0⟩, 0, []⟩)
  | 2 => some (.pong ⟨⟨[], 0, 0⟩, [], 0, []⟩)
  | 3 => some (.findNode ⟨[], 0, []⟩)
  | 4 => some (.neighbors ⟨[], 0, []⟩)
  | _ => none

/-- Body decode for a dispatched tag; `none` means the tag hit the
`default` case of the type switch. -/
def decodeBody : Nat → List Nat → Option (Except Rlp.Err Packet)
  | 1, bs => some ((pingDecode bs).map .ping)
  | 2, bs => some ((pongDecode bs).map .pong)
  | 3, bs => some ((findNodeDecode bs).map .findNode)
  | 4, bs => some ((neighborsDecode bs).map .neighbors)
  | _, _ => none

/-- Go errors surfaced by `discv4.Decode` and `recoverNodeID`; the
underlying secp256k1 failure is carried as an opaque code. -/
inductive Err where
  | tooSmall
  | badHash
  | recoverFailed (code : Nat)
  | pubkeyLen (len : Nat)
  | unknownType (t : Nat)
  | rlpError (e : Rlp.Err)
deriving DecidableEq, Repr

/-- The zero `NodeID` (`[64]byte`). -/
def zeroNodeID : List Nat := List.replicate 64 0

/-- The four (named) return values of `discv4.Decode`, plus the caller's
buffer after the call (the Go function never writes to it). -/
structure DecodeOut where
  hash : List Nat
  p : Option Packet
  id : List Nat
  err : Option Err
  buf : List Nat
deriving DecidableEq, Repr

/-- Embeds `recoverNodeID`: `recover` is the external
`secp256k1.RecoverPubkey`; on success the pubkey must be 65 bytes
(`len(pubkey)-1 == len(id)`), and the NodeID is `pubkey[1:65]`. -/
def recoverNodeID (recover : List Nat → List Nat → Except Nat (List Nat))
    (hash sig : List Nat) : Except Err (List Nat) :=
  match recover hash sig with
  | .error e => .error (.recoverFailed e)
  | .ok pubkey =>
    if (pubkey.length : Int) - 1 ≠ 64 then .error (.pubkeyLen pubkey.length)
    else .ok ((pubkey.drop 1).take 64)

/-- Embeds `discv4.Decode`.  `keccak` is the external
`crypto.Keccak256`; `recover` the external `secp256k1.RecoverPubkey`. -/
def decode (keccak : List Nat → List Nat)
    (recover : List Nat → List Nat → Except Nat (List Nat))
    (buf : List Nat) : DecodeOut :=
  if buf.length < headSize + 1 then ⟨[], none, zeroNodeID, some .tooSmall, buf⟩
  else
    let hash := buf.take macSize
    let sig := (buf.drop macSize).take sigSize
    let sigdata := buf.drop headSize
    if hash ≠ keccak (buf.drop macSize) then ⟨hash, none, zeroNodeID, some .badHash, buf⟩
    else
      match recoverNodeID recover (keccak (buf.drop headSize)) sig with
      | .error e => ⟨hash, none, zeroNodeID, some e, buf⟩
      | .ok fromID =>
        let ptype := sigdata.headD 0
        match decodeBody ptype (sigdata.drop 1) with
        | none => ⟨hash, none, zeroNodeID, some (.unknownType ptype), buf⟩
        | some (.error e) => ⟨hash, newPacket ptype, fromID, some (.rlpError e), buf⟩
        | some (.ok pkt) => ⟨hash, some pkt, fromID, none, buf⟩

/-- Go slicing `bs[i:j]`: defined only when `i ≤ j ≤ len bs`, else the
program panics (`none`). -/
def slice? (bs : List Nat) (i j : Nat) : Option (List Nat) :=
  if i ≤ j ∧ j ≤ bs.length then some ((bs.drop i).take (j - i)) else none

/-- Go slicing `bs[i:]`. -/
def sliceFrom? (bs : List Nat) (i : Nat) : Option (List Nat) := slice? bs i bs.length

/-- Go indexing `bs[i]`: panics (`none`) out of bounds. -/
def index? (bs : List Nat) (i : Nat) : Option Nat := bs.get? i

/-- Panic-aware embedding of `discv4.Decode`: every Go slice/index of
the caller's buffer goes through the bounds-checked operations, and a
`none` result marks an out-of-bounds access (a Go panic). -/
def decodeChecked (keccak : List Nat → List Nat)
    (recover : List Nat → List Nat → Except Nat (List Nat))
    (buf : List Nat) : Option DecodeOut :=
  if buf.length < headSize + 1 then some ⟨[], none, zeroNodeID, some .tooSmall, buf⟩
  else do
    let hash ← slice? buf 0 macSize
    let sig ← slice? buf macSize headSize
    let sigdata ← sliceFrom? buf headSize
    let tailFromMac ← sliceFrom? buf macSize
    if hash ≠ keccak tailFromMac then some ⟨hash, none, zeroNodeID, some .badHash, buf⟩
    else
      match recoverNodeID recover (keccak sigdata) sig with
      | .error e => some ⟨hash, none, zeroNodeID, some e, buf⟩
      | .ok fromID => do
        let ptype ← index? sigdata 0
        let body ← sliceFrom? sigdata 1
        match decodeBody ptype body with
        | none => some ⟨hash, none, zeroNodeID, some (.unknownType ptype), buf⟩
        | some (.error e) => some ⟨hash, newPacket ptype, fromID, some (.rlpError e), buf⟩
        | some (.ok pkt) => some ⟨hash, some pkt, fromID, none, buf⟩

/-- Canonical encoding of an `rpcEndpoint`. -/
def encEndpoint (ep : RpcEndpoint) : List Nat :=
  Rlp.encList [Rlp.encBytes ep.ip, Rlp.encUint ep.udp, Rlp.encUint ep.tcp]

/-- Canonical encoding of an `rpcNode`. -/
def encNode (n : RpcNode) : List Nat :=
  Rlp.encList [Rlp.encBytes n.ip, Rlp.encUint n.udp, Rlp.encUint n.tcp, Rlp.encBytes n.id]

/-- Body of a `Ping` packet: the required fields followed by any extra
items (what lands in `Rest`). -/
def encPingBody (v : Nat) (f t : RpcEndpoint) (e : Nat) (extras : List (List Nat)) : List Nat :=
  Rlp.encList ([Rlp.encUint v, encEndpoint f, encEndpoint t, Rlp.encUint e] ++ extras)

/-- Body of a `Pong` packet with extra trailing items. -/
def encPongBody (t : RpcEndpoint) (tok : List Nat) (e : Nat) (extras : List (List Nat)) : List Nat :=
  Rlp.encList ([encEndpoint t, Rlp.encBytes tok, Rlp.encUint e] ++ extras)

/-- Body of a `FindNode` packet with extra trailing items. -/
def encFindNodeBody (tg : List Nat) (e : Nat) (extras : List (List Nat)) : List Nat :=
  Rlp.encList ([Rlp.encBytes tg, Rlp.encUint e] ++ extras)

/-- Body of a `Neighbors` packet with extra trailing items. -/
def encNeighborsBody (ns : List RpcNode) (e : Nat) (extras : List (List Nat)) : List Nat :=
  Rlp.encList ([Rlp.encList (ns.map encNode), Rlp.encUint e] ++ extras)

/-- Field bounds under which an endpoint is wire-representable. -/
def EpOK (ep : RpcEndpoint) : Prop :=
  ep.ip.length < 2 ^ 32 ∧ ep.udp < 2 ^ 16 ∧ ep.tcp < 2 ^ 16

instance (ep : RpcEndpoint) : Decidable (EpOK ep) := by unfold EpOK; infer_instance

/-- Field bounds under which an `rpcNode` is wire-representable. -/
def NodeOK (n : RpcNode) : Prop :=
  n.ip.length < 2 ^ 32 ∧ n.udp < 2 ^ 16 ∧ n.tcp < 2 ^ 16 ∧ n.id.length = 64

instance (n : RpcNode) : Decidable (NodeOK n) := by unfold NodeOK; infer_instance

/-- Extra trailing items: each one a well-formed RLP item, with a total
size bound keeping the enclosing list wire-representable. -/
def ExtrasOK (extras : List (List Nat)) : Prop :=
  (∀ e ∈ extras, Rlp.isItem e) ∧ extras.flatten.length < 2 ^ 60

instance (extras : List (List Nat)) : Decidable (ExtrasOK extras) := by
  unfold ExtrasOK
  have : DecidablePred (fun e => ∀ x ∈ e, Rlp.isItem x) := fun e => List.decidableBAll _ e
  infer_instance

end Discv4

namespace Discv5

/-- `sizeofMaskingIV`. -/
def sizeofMaskingIV : Nat := 16

/-- `binary.Size(StaticHeader{})`: ProtocolID 6 + Version 2 + Flag 1 +
Nonce 12 + AuthSize 2 = 23 bytes. -/
def sizeofStaticHeader : Nat := 23

/-- `sizeofStaticPacketData = sizeofMaskingIV + sizeofStaticHeader`. -/
def sizeofStaticPacketData : Nat := sizeofMaskingIV + sizeofStaticHeader

/-- `minMessageSize` (data after the static header). -/
def minMessageSize : Nat := 48

/-- `minVersion`. -/
def minVersion : Nat := 1

/-- Flag values `flagMessage`, `flagWhoareyou`, `flagHandshake`. -/
def flagMessage : Nat := 0

/-- `flagWhoareyou`. -/
def flagWhoareyou : Nat := 1

/-- `flagHandshake`. -/
def flagHandshake : Nat := 2

/-- `protocolID = [6]byte{'d','i','s','c','v','5'}`. -/
def protocolID : List Nat := [100, 105, 115, 99, 118, 53]

/-- The static fields of a packet header. -/
structure StaticHeader where
  protocolID : List Nat
  version : Nat
  flag : Nat
  nonce : List Nat
  authSize : Nat
deriving DecidableEq, Repr

/-- `binary.Read(reader, binary.BigEndian, &head.StaticHeader)` on the 23
unmasked header bytes: 6-byte protocol id, big-endian uint16 version,
flag byte, 12-byte nonce, big-endian uint16 auth size. -/
def parseStaticHeader (bs : List Nat) : StaticHeader :=
  ⟨bs.take 6, 256 * bs.getD 6 0 + bs.getD 7 0, bs.getD 8 0,
    (bs.drop 9).take 12, 256 * bs.getD 21 0 + bs.getD 22 0⟩

/-- The discv5 error values used by `Decode`/`checkValid` (plus
`errInvalidFlag`, declared in the source but never returned), and the
placeholder `errors.New("TODO")` that ends `Decode`. -/
inductive Err where
  | tooShort
  | invalidHeader
  | minVersion
  | msgTooShort
  | authSize
  | invalidFlag
  | todo
deriving DecidableEq, Repr

/-- Embeds `StaticHeader.checkValid`; `packetLen` is the length remaining
after the static header. -/
def checkValid (h : StaticHeader) (packetLen : Nat) : Option Err :=
  if h.protocolID ≠ protocolID then some .invalidHeader
  else if h.version < minVersion then some .minVersion
  else if h.flag ≠ flagWhoareyou ∧ packetLen < minMessageSize then some .msgTooShort
  else if packetLen < h.authSize then some .authSize
  else none

/-- `cipher.Stream.XORKeyStream` starting at stream position `off`:
each byte is XORed with the keystream byte at its position.  The same
stream object is used for the static header (positions 0..22) and then
the auth data (positions 23..). -/
def xorKeyStream (ks : Nat → Nat) : Nat → List Nat → List Nat
  | _, [] => []
  | off, b :: bs => (b ^^^ ks off) :: xorKeyStream ks (off + 1) bs

/-- The AES-CTR keystream generator (external `crypto/aes` +
`cipher.NewCTR`): key bytes → IV bytes → stream position → keystream
byte. -/
abbrev KeyStream := List Nat → List Nat → Nat → Nat

/-- Embeds `Header.mask`: the cipher is keyed with `destID[:16]` (the
low 16 bytes of the recipient's node id) and initialized with the IV. -/
def mask (aesCtr : KeyStream) (destID iv : List Nat) : Nat → Nat :=
  aesCtr (destID.take 16) iv

/-- Embeds `discv5.Decode`.  Returns the Go result (always an error in
this source: validation failures or the final `errors.New("TODO")`)
together with the caller's buffer after the call, since the function
unmasks header and auth-data bytes in place. -/
def decode (aesCtr : KeyStream) (buf nid : List Nat) : Except Err Unit × List Nat :=
  if buf.length < sizeofStaticPacketData then (.error .tooShort, buf)
  else
    let iv := buf.take sizeofMaskingIV
    let ks := mask aesCtr nid iv
    let staticHeader := (buf.drop sizeofMaskingIV).take sizeofStaticHeader
    let unmasked := xorKeyStream ks 0 staticHeader
    let buf1 := buf.take sizeofMaskingIV ++ unmasked ++ buf.drop sizeofStaticPacketData
    let head := parseStaticHeader unmasked
    let remainingInput := buf.length - sizeofStaticPacketData
    match checkValid head remainingInput with
    | some _ => (.error .invalidHeader, buf1)
    | none =>
      let authDataEnd := sizeofStaticPacketData + head.authSize
      let authData := (buf1.drop sizeofStaticPacketData).take head.authSize
      let authData1 := xorKeyStream ks sizeofStaticHeader authData
      let buf2 := buf1.take sizeofStaticPacketData ++ authData1 ++ buf1.drop authDataEnd
      (.error .todo, buf2)

/-- The unmasked static-header bytes `Decode` computes for a buffer:
the 23 bytes after the masking IV, XORed with the keystream keyed from
the destination id and the buffer's own IV. -/
def unmaskedHeader (aesCtr : KeyStream) (buf nid : List Nat) : List Nat :=
  xorKeyStream (mask aesCtr nid (buf.take sizeofMaskingIV)) 0
    ((buf.drop sizeofMaskingIV).take sizeofStaticHeader)

/-- Panic-aware embedding of `discv5.Decode`: the slices `buf[:16]`,
`buf[16:39]` and `buf[39:authDataEnd]` go through the bounds-checked
slicing; `none` marks an out-of-bounds access (a Go panic). -/
def decodeChecked (aesCtr : KeyStream) (buf nid : List Nat) :
    Option (Except Err Unit × List Nat) :=
  if buf.length < sizeofStaticPacketData then some (.error .tooShort, buf)
  else do
    let iv ← Discv4.slice? buf 0 sizeofMaskingIV
    let ks := mask aesCtr nid iv
    let staticHeader ← Discv4.slice? buf sizeofMaskingIV sizeofStaticPacketData
    let unmasked := xorKeyStream ks 0 staticHeader
    let buf1 := buf.take sizeofMaskingIV ++ unmasked ++ buf.drop sizeofStaticPacketData
    let head := parseStaticHeader unmasked
    let remainingInput := buf.length - sizeofStaticPacketData
    match checkValid head remainingInput with
    | some _ => some (.error .invalidHeader, buf1)
    | none => do
      let authDataEnd := sizeofStaticPacketData + head.authSize
      let authData ← Discv4.slice? buf1 sizeofStaticPacketData authDataEnd
      let authData1 := xorKeyStream ks sizeofStaticHeader authData
      some (.error .todo, buf1.take sizeofStaticPacketData ++ authData1 ++ buf1.drop authDataEnd)

end Discv5

namespace Rlp

/-- Header length of the encoded form of a payload. -/
def headLenOf (p : List Nat) : Nat :=
  if p.length < 56 then 1 else 1 + (beBytes p.length).length

/-- The header bytes `encPayload` prepends to the payload. -/
def encHdr (base : Nat) (p : List Nat) : List Nat :=
  if p.length < 56 then [base + p.length]
  else (base + 55 + (beBytes p.length).length) :: beBytes p.length

end Rlp

theorem beVal_append (l : List Nat) (d : Nat) : beVal (l ++ [d]) = beVal l * 256 + d := by
  simp [beVal, List.foldl_append]

theorem beBytes_val (n : Nat) : beVal (beBytes n) = n := by
  induction n using Nat.strong_induction_on with
  | _ n ih =>
    match n with
    | 0 => simp [beBytes, beVal]
    | m + 1 =>
      rw [beBytes, beVal_append, ih ((m + 1) / 256) (Nat.div_lt_self (Nat.succ_pos m) (by omega))]
      omega

theorem beBytes_cons (n : Nat) (h : 0 < n) : ∃ d t, beBytes n = d :: t ∧ d ≠ 0 := by
  induction n using Nat.strong_induction_on with
  | _ n ih =>
    match n with
    | 0 => omega
    | m + 1 =>
      rw [beBytes]
      by_cases h256 : m + 1 < 256
      · refine ⟨(m + 1) % 256, [], ?_, by omega⟩
        have : (m + 1) / 256 = 0 := by omega
        rw [this]
        simp [beBytes]
      · obtain ⟨d, t, hdt, hd⟩ := ih ((m + 1) / 256)
          (Nat.div_lt_self (Nat.succ_pos m) (by omega)) (by omega)
        exact ⟨d, t ++ [(m + 1) % 256], by rw [hdt]; simp, hd⟩

theorem beBytes_ne_nil (n : Nat) (h : 0 < n) : beBytes n ≠ [] := by
  obtain ⟨d, t, hdt, _⟩ := beBytes_cons n h
  simp [hdt]

theorem beBytes_length_le (k n : Nat) (h : n < 256 ^ k) : (beBytes n).length ≤ k := by
  induction k generalizing n with
  | zero =>
    have : n = 0 := by simpa using h
    simp [this, beBytes]
  | succ k ih =>
    match n with
    | 0 => simp [beBytes]
    | m + 1 =>
      rw [beBytes]
      have hdiv : (m + 1) / 256 < 256 ^ k := by
        rw [Nat.div_lt_iff_lt_mul (by omega)]
        calc m + 1 < 256 ^ (k + 1) := h
        _ = 256 ^ k * 256 := by ring
      simpa using ih ((m + 1) / 256) hdiv

theorem beBytes_small (n : Nat) (h0 : 0 < n) (h : n < 256) : beBytes n = [n] := by
  match n, h0 with
  | m + 1, _ =>
    rw [beBytes]
    have h1 : (m + 1) / 256 = 0 := by omega
    have h2 : (m + 1) % 256 = m + 1 := by omega
    rw [h1, h2]
    simp [beBytes]

theorem beBytes_headD_ne_zero (n : Nat) (h : 0 < n) : (beBytes n).headD 0 ≠ 0 := by
  obtain ⟨d, t, hdt, hd⟩ := beBytes_cons n h
  simp [hdt, hd]

theorem encPayload_eq (base : Nat) (p : List Nat) :
    Rlp.encPayload base p = Rlp.encHdr base p ++ p := by
  unfold Rlp.encPayload Rlp.encHdr
  split <;> simp

theorem encHdr_length (base : Nat) (p : List Nat) :
    (Rlp.encHdr base p).length = Rlp.headLenOf p := by
  unfold Rlp.encHdr Rlp.headLenOf
  split <;> simp <;> omega

theorem encPayload_length (base : Nat) (p : List Nat) :
    (Rlp.encPayload base p).length = Rlp.headLenOf p + p.length := by
  rw [encPayload_eq, List.length_append, encHdr_length]

theorem headLenOf_le (p : List Nat) (h : p.length < 2 ^ 64) : Rlp.headLenOf p ≤ 9 := by
  unfold Rlp.headLenOf
  split
  · omega
  · have h8 : (beBytes p.length).length ≤ 8 :=
      beBytes_length_le 8 p.length (by norm_num at h ⊢; omega)
    omega

theorem headLenOf_pos (p : List Nat) : 1 ≤ Rlp.headLenOf p := by
  unfold Rlp.headLenOf
  split <;> omega

theorem parseHead_single (b : Nat) (rest : List Nat) (h : b < 0x80) :
    Rlp.parseHead (b :: rest) = .ok (.single b) := by
  simp [Rlp.parseHead, h]

theorem parseHead_short_str (L : Nat) (rest : List Nat) (h : L < 56) :
    Rlp.parseHead ((0x80 + L) :: rest) = .ok (.str 1 L) := by
  simp only [Rlp.parseHead]
  rw [if_neg (by omega), if_pos (by omega)]
  have hL : 0x80 + L - 0x80 = L := by omega
  rw [hL]

theorem parseHead_short_list (L : Nat) (rest : List Nat) (h : L < 56) :
    Rlp.parseHead ((0xc0 + L) :: rest) = .ok (.list 1 L) := by
  simp only [Rlp.parseHead]
  rw [if_neg (by omega), if_neg (by omega), if_neg (by omega), if_pos (by omega)]
  have hL : 0xc0 + L - 0xc0 = L := by omega
  rw [hL]

theorem parseHead_long_str (sizeLen : Nat) (sz p2 : List Nat) (hl : sz.length = sizeLen)
    (h1 : 1 ≤ sizeLen) (h3 : sizeLen ≤ 8) (h4 : sz.headD 0 ≠ 0) (h5 : 56 ≤ beVal sz) :
    Rlp.parseHead ((0xb7 + sizeLen) :: (sz ++ p2)) = .ok (.str (1 + sizeLen) (beVal sz)) := by
  simp only [Rlp.parseHead]
  rw [if_neg (by omega), if_neg (by omega), if_pos (by omega)]
  have hsl : 0xb7 + sizeLen - 0xb7 = sizeLen := by omega
  rw [hsl]
  rw [if_neg (by rw [List.length_append, hl]; omega)]
  rw [List.take_append_of_le_length (by omega), hl.symm, List.take_length]
  rw [if_neg h4, if_neg (by omega)]

theorem parseHead_long_list (sizeLen : Nat) (sz p2 : List Nat) (hl : sz.length = sizeLen)
    (h1 : 1 ≤ sizeLen) (h3 : sizeLen ≤ 8) (h4 : sz.headD 0 ≠ 0) (h5 : 56 ≤ beVal sz) :
    Rlp.parseHead ((0xf7 + sizeLen) :: (sz ++ p2)) = .ok (.list (1 + sizeLen) (beVal sz)) := by
  simp only [Rlp.parseHead]
  rw [if_neg (by omega), if_neg (by omega), if_neg (by omega), if_neg (by omega)]
  have hsl : 0xf7 + sizeLen - 0xf7 = sizeLen := by omega
  rw [hsl]
  rw [if_neg (by rw [List.length_append, hl]; omega)]
  rw [List.take_append_of_le_length (by omega), hl.symm, List.take_length]
  rw [if_neg h4, if_neg (by omega)]

theorem parseHead_encPayload_str (p t : List Nat) (h : p.length < 2 ^ 64) :
    Rlp.parseHead (Rlp.encPayload 0x80 p ++ t) = .ok (.str (Rlp.headLenOf p) p.length) := by
  unfold Rlp.encPayload Rlp.headLenOf
  by_cases h56 : p.length < 56
  · rw [if_pos h56, if_pos h56, List.cons_append]
    exact parseHead_short_str p.length (p ++ t) h56
  · rw [if_neg h56, if_neg h56, List.cons_append, List.append_assoc]
    have hpos : 1 ≤ (beBytes p.length).length :=
      List.length_pos.mpr (beBytes_ne_nil p.length (by omega))
    have h8 : (beBytes p.length).length ≤ 8 :=
      beBytes_length_le 8 p.length (by norm_num at h ⊢; omega)
    have hb : 0x80 + 55 + (beBytes p.length).length = 0xb7 + (beBytes p.length).length := by omega
    rw [hb]
    rw [parseHead_long_str (beBytes p.length).length (beBytes p.length) (p ++ t) rfl hpos h8
      (beBytes_headD_ne_zero p.length (by omega)) (by rw [beBytes_val]; omega)]
    rw [beBytes_val]

theorem parseHead_encPayload_list (p t : List Nat) (h : p.length < 2 ^ 64) :
    Rlp.parseHead (Rlp.encPayload 0xc0 p ++ t) = .ok (.list (Rlp.headLenOf p) p.length) := by
  unfold Rlp.encPayload Rlp.headLenOf
  by_cases h56 : p.length < 56
  · rw [if_pos h56, if_pos h56, List.cons_append]
    exact parseHead_short_list p.length (p ++ t) h56
  · rw [if_neg h56, if_neg h56, List.cons_append, List.append_assoc]
    have hpos : 1 ≤ (beBytes p.length).length :=
      List.length_pos.mpr (beBytes_ne_nil p.length (by omega))
    have h8 : (beBytes p.length).length ≤ 8 :=
      beBytes_length_le 8 p.length (by norm_num at h ⊢; omega)
    have hb : 0xc0 + 55 + (beBytes p.length).length = 0xf7 + (beBytes p.length).length := by omega
    rw [hb]
    rw [parseHead_long_list (beBytes p.length).length (beBytes p.length) (p ++ t) rfl hpos h8
      (beBytes_headD_ne_zero p.length (by omega)) (by rw [beBytes_val]; omega)]
    rw [beBytes_val]

theorem encPayload_append_drop (base : Nat) (p t : List Nat) :
    (Rlp.encPayload base p ++ t).drop (Rlp.headLenOf p) = p ++ t := by
  rw [encPayload_eq, List.append_assoc, List.drop_left' (encHdr_length base p)]

theorem encPayload_append_drop_all (base : Nat) (p t : List Nat) :
    (Rlp.encPayload base p ++ t).drop (Rlp.headLenOf p + p.length) = t := by
  rw [encPayload_eq, List.drop_left' (by rw [List.length_append, encHdr_length])]

theorem encPayload_append_length (base : Nat) (p t : List Nat) :
    (Rlp.encPayload base p ++ t).length = Rlp.headLenOf p + p.length + t.length := by
  rw [List.length_append, encPayload_length]

theorem bytesItem_encPayload (s t : List Nat) (h : s.length < 2 ^ 64)
    (hcanon : ¬(s.length = 1 ∧ s.headD 0 < 0x80)) :
    Rlp.bytesItem (Rlp.encPayload 0x80 s ++ t) = .ok (s, t) := by
  unfold Rlp.bytesItem
  rw [parseHead_encPayload_str s t h]
  simp only [bind, Except.bind]
  rw [if_neg (by rw [encPayload_append_length]; omega)]
  rw [encPayload_append_drop, List.take_left' rfl]
  rw [if_neg hcanon, encPayload_append_drop_all]

theorem bytesItem_enc (s t : List Nat) (h : s.length < 2 ^ 64) :
    Rlp.bytesItem (Rlp.encBytes s ++ t) = .ok (s, t) := by
  rcases s with _ | ⟨b, _ | ⟨c, s'⟩⟩
  · exact bytesItem_encPayload [] t (by simp) (by simp)
  · by_cases hb : b < 0x80
    · show Rlp.bytesItem (Rlp.encBytes [b] ++ t) = _
      rw [Rlp.encBytes, if_pos hb, List.cons_append, List.nil_append]
      unfold Rlp.bytesItem
      rw [parseHead_single b t hb]
      simp [bind, Except.bind]
    · show Rlp.bytesItem (Rlp.encBytes [b] ++ t) = _
      rw [Rlp.encBytes, if_neg hb]
      exact bytesItem_encPayload [b] t (by simp) (by simp; omega)
  · exact bytesItem_encPayload (b :: c :: s') t h (by simp)

theorem encBytes_of_beBytes (n : Nat) (h : 128 ≤ n) :
    Rlp.encBytes (beBytes n) = Rlp.encPayload 0x80 (beBytes n) := by
  rcases hbe : beBytes n with _ | ⟨d, _ | ⟨c, s'⟩⟩
  · have := beBytes_val n
    rw [hbe] at this
    simp [beVal] at this
    omega
  · have := beBytes_val n
    rw [hbe] at this
    simp [beVal] at this
    rw [Rlp.encBytes, if_neg (by omega)]
  · rfl

theorem uintItem_enc (maxB n : Nat) (t : List Nat) (hn : n < 256 ^ maxB) (hmax : maxB ≤ 8) :
    Rlp.uintItem maxB (Rlp.encUint n ++ t) = .ok (n, t) := by
  match n, hn with
  | 0, _ =>
    show Rlp.uintItem maxB (Rlp.encBytes (beBytes 0) ++ t) = _
    have h0 : beBytes 0 = [] := by simp [beBytes]
    rw [h0]
    unfold Rlp.uintItem
    rw [show Rlp.encBytes [] = Rlp.encPayload 0x80 [] from rfl]
    rw [parseHead_encPayload_str [] t (by simp)]
    simp only [bind, Except.bind, List.length_nil]
    rw [if_neg (by omega), if_neg (by rw [encPayload_append_length]; simp)]
    rw [encPayload_append_drop]
    simp [beVal, Rlp.headLenOf, Rlp.encPayload]
  | m + 1, hn' =>
    by_cases h128 : m + 1 < 128
    · have hbe : beBytes (m + 1) = [m + 1] := beBytes_small (m + 1) (by omega) (by omega)
      show Rlp.uintItem maxB (Rlp.encBytes (beBytes (m + 1)) ++ t) = _
      rw [hbe, Rlp.encBytes, if_pos h128, List.cons_append, List.nil_append]
      unfold Rlp.uintItem
      rw [parseHead_single (m + 1) t h128]
      simp [bind, Except.bind]
    · have hlen : (beBytes (m + 1)).length ≤ maxB := beBytes_length_le maxB (m + 1) hn'
      have hpos : 0 < (beBytes (m + 1)).length :=
        List.length_pos.mpr (beBytes_ne_nil (m + 1) (by omega))
      show Rlp.uintItem maxB (Rlp.encBytes (beBytes (m + 1)) ++ t) = _
      rw [encBytes_of_beBytes (m + 1) (by omega)]
      unfold Rlp.uintItem
      rw [parseHead_encPayload_str (beBytes (m + 1)) t (by omega)]
      simp only [bind, Except.bind]
      rw [if_neg (by omega), if_neg (by rw [encPayload_append_length]; omega)]
      rw [encPayload_append_drop, List.take_left' rfl]
      obtain ⟨d, tl, hdt, hd⟩ := beBytes_cons (m + 1) (by omega)
      rw [if_neg (by rw [hdt]; simp [hd]), if_neg (by rw [beBytes_val]; omega)]
      rw [encPayload_append_drop_all, beBytes_val]

theorem byteArrayItem_enc (s t : List Nat) (h : s.length = 64) :
    Rlp.byteArrayItem 64 (Rlp.encBytes s ++ t) = .ok (s, t) := by
  have henc : Rlp.encBytes s = Rlp.encPayload 0x80 s := by
    rcases s with _ | ⟨b, _ | ⟨c, s'⟩⟩ <;> simp_all
    rfl
  rw [henc]
  unfold Rlp.byteArrayItem
  rw [parseHead_encPayload_str s t (by omega)]
  simp only [bind, Except.bind]
  rw [if_neg (by omega), if_neg (by rw [encPayload_append_length]; omega)]
  rw [encPayload_append_drop, List.take_left' rfl]
  rw [if_neg (by omega), encPayload_append_drop_all]

theorem listItem_encPayload (p t : List Nat) (h : p.length < 2 ^ 64) :
    Rlp.listItem (Rlp.encPayload 0xc0 p ++ t) = .ok (p, t) := by
  unfold Rlp.listItem
  rw [parseHead_encPayload_list p t h]
  simp only [bind, Except.bind]
  rw [if_neg (by rw [encPayload_append_length]; omega)]
  rw [encPayload_append_drop, List.take_left' rfl, encPayload_append_drop_all]

theorem pow16_eq : (2 : Nat) ^ 16 = 256 ^ 2 := by norm_num

theorem pow64_eq : (2 : Nat) ^ 64 = 256 ^ 8 := by norm_num

theorem parseHead_append (e t : List Nat) (hd : Rlp.Head)
    (h : Rlp.parseHead e = .ok hd) : Rlp.parseHead (e ++ t) = .ok hd := by
  match e with
  | [] => simp [Rlp.parseHead] at h
  | b :: rest =>
    rw [List.cons_append]
    simp only [Rlp.parseHead] at h ⊢
    by_cases h1 : b < 0x80
    · rw [if_pos h1] at h ⊢; exact h
    · rw [if_neg h1] at h ⊢
      by_cases h2 : b ≤ 0xb7
      · rw [if_pos h2] at h ⊢; exact h
      · rw [if_neg h2] at h ⊢
        by_cases h3 : b ≤ 0xbf
        · rw [if_pos h3] at h ⊢
          by_cases h4 : rest.length < b - 0xb7
          · rw [if_pos h4] at h; exact absurd h (by simp)
          · rw [if_neg h4] at h
            rw [if_neg (by rw [List.length_append]; omega)]
            rw [List.take_append_of_le_length (by omega)]
            exact h
        · rw [if_neg h3] at h ⊢
          by_cases h5 : b ≤ 0xf7
          · rw [if_pos h5] at h ⊢; exact h
          · rw [if_neg h5] at h ⊢
            by_cases h4 : rest.length < b - 0xf7
            · rw [if_pos h4] at h; exact absurd h (by simp)
            · rw [if_neg h4] at h
              rw [if_neg (by rw [List.length_append]; omega)]
              rw [List.take_append_of_le_length (by omega)]
              exact h

theorem isItem_ne_nil (e : List Nat) (h : Rlp.isItem e) : e ≠ [] := by
  intro he
  subst he
  simp [Rlp.isItem, Rlp.parseHead] at h

theorem raw_isItem (e t : List Nat) (h : Rlp.isItem e) : Rlp.raw (e ++ t) = .ok (e, t) := by
  unfold Rlp.isItem at h
  cases heq : Rlp.parseHead e with
  | error err => rw [heq] at h; simp at h
  | ok hd =>
    rw [heq] at h
    simp only [decide_eq_true_eq] at h
    unfold Rlp.raw
    rw [parseHead_append e t hd heq]
    simp only [bind, Except.bind]
    rw [if_neg (by rw [List.length_append]; omega)]
    rw [← h, List.take_left, List.drop_left]

theorem tailSeq_enc (extras : List (List Nat)) (fuel : Nat)
    (hok : ∀ e ∈ extras, Rlp.isItem e) (hfuel : extras.flatten.length ≤ fuel) :
    Rlp.tailSeq fuel extras.flatten = .ok extras := by
  induction extras generalizing fuel with
  | nil => simp [Rlp.tailSeq]
  | cons e es ih =>
    have he : Rlp.isItem e := hok e (by simp)
    have hne : e ≠ [] := isItem_ne_nil e he
    rw [List.flatten_cons] at hfuel ⊢
    match e, hne with
    | b :: e', _ =>
      have hraw := raw_isItem (b :: e') es.flatten he
      rw [List.length_append] at hfuel
      cases fuel with
      | zero => simp at hfuel
      | succ f =>
        rw [List.cons_append]
        rw [List.cons_append] at hraw
        simp only [Rlp.tailSeq, hraw, bind, Except.bind]
        rw [ih f (fun x hx => hok x (List.mem_cons_of_mem _ hx)) (by simp at hfuel ⊢; omega)]

theorem encBytes_length (s : List Nat) (h : s.length < 2 ^ 64) :
    (Rlp.encBytes s).length ≤ s.length + 9 := by
  have hp : (Rlp.encPayload 0x80 s).length ≤ s.length + 9 := by
    rw [encPayload_length]
    have := headLenOf_le s h
    omega
  rcases s with _ | ⟨b, _ | ⟨c, s'⟩⟩
  · exact hp
  · rw [Rlp.encBytes]
    split
    · simp
    · exact hp
  · exact hp

theorem encBytes_length_short (s : List Nat) (h : s.length < 56) :
    (Rlp.encBytes s).length ≤ s.length + 1 := by
  have hp : (Rlp.encPayload 0x80 s).length ≤ s.length + 1 := by
    rw [encPayload_length]
    unfold Rlp.headLenOf
    rw [if_pos h]
    omega
  rcases s with _ | ⟨b, _ | ⟨c, s'⟩⟩
  · exact hp
  · rw [Rlp.encBytes]
    split
    · simp
    · exact hp
  · exact hp

theorem encUint_length (n : Nat) (h : n < 2 ^ 64) : (Rlp.encUint n).length ≤ 9 := by
  unfold Rlp.encUint
  have hb : (beBytes n).length ≤ 8 := beBytes_length_le 8 n (by rw [← pow64_eq]; exact h)
  have := encBytes_length_short (beBytes n) (by omega)
  omega

theorem encEndpoint_length (ep : Discv4.RpcEndpoint) (h : Discv4.EpOK ep) :
    (Discv4.encEndpoint ep).length ≤ ep.ip.length + 36 := by
  obtain ⟨hip, hudp, htcp⟩ := h
  unfold Discv4.encEndpoint Rlp.encList
  rw [encPayload_length]
  simp only [List.flatten_cons, List.flatten_nil, List.append_nil, List.length_append]
  have h1 := encBytes_length ep.ip (by omega)
  have h2 := encUint_length ep.udp (by omega)
  have h3 := encUint_length ep.tcp (by omega)
  have h4 := headLenOf_le (Rlp.encBytes ep.ip ++ (Rlp.encUint ep.udp ++ Rlp.encUint ep.tcp))
    (by simp only [List.length_append]; omega)
  simp only [List.length_append] at h4
  omega

theorem encNode_length (n : Discv4.RpcNode) (h : Discv4.NodeOK n) :
    (Discv4.encNode n).length ≤ n.ip.length + 109 := by
  obtain ⟨hip, hudp, htcp, hid⟩ := h
  unfold Discv4.encNode Rlp.encList
  rw [encPayload_length]
  simp only [List.flatten_cons, List.flatten_nil, List.append_nil, List.length_append]
  have h1 := encBytes_length n.ip (by omega)
  have h2 := encUint_length n.udp (by omega)
  have h3 := encUint_length n.tcp (by omega)
  have h4 := encBytes_length n.id (by omega)
  have h5 := headLenOf_le
    (Rlp.encBytes n.ip ++ (Rlp.encUint n.udp ++ (Rlp.encUint n.tcp ++ Rlp.encBytes n.id)))
    (by simp only [List.length_append]; omega)
  simp only [List.length_append] at h5
  omega

theorem encPayload_ne_nil (base : Nat) (p : List Nat) : Rlp.encPayload base p ≠ [] := by
  unfold Rlp.encPayload
  split <;> simp

theorem listItem_enc_self (p : List Nat) (h : p.length < 2 ^ 64) :
    Rlp.listItem (Rlp.encPayload 0xc0 p) = .ok (p, []) := by
  have := listItem_encPayload p [] h
  rwa [List.append_nil] at this

theorem endpointItem_enc (ep : Discv4.RpcEndpoint) (t : List Nat) (h : Discv4.EpOK ep) :
    Discv4.endpointItem (Discv4.encEndpoint ep ++ t) = .ok (ep, t) := by
  obtain ⟨hip, hudp, htcp⟩ := h
  have hA := encBytes_length ep.ip (by omega)
  have hB := encUint_length ep.udp (by omega)
  have hC := encUint_length ep.tcp (by omega)
  unfold Discv4.endpointItem Discv4.encEndpoint Rlp.encList
  simp only [List.flatten_cons, List.flatten_nil]
  rw [listItem_encPayload _ t (by simp only [List.length_append, List.length_nil]; omega)]
  simp only [bind, Except.bind]
  rw [bytesItem_enc ep.ip _ (by omega)]
  simp only [bind, Except.bind]
  rw [uintItem_enc 2 ep.udp _ (by rw [← pow16_eq]; exact hudp) (by omega)]
  simp only [bind, Except.bind]
  rw [uintItem_enc 2 ep.tcp [] (by rw [← pow16_eq]; exact htcp) (by omega)]
  simp [bind, Except.bind]

theorem nodeItem_enc (n : Discv4.RpcNode) (t : List Nat) (h : Discv4.NodeOK n) :
    Discv4.nodeItem (Discv4.encNode n ++ t) = .ok (n, t) := by
  obtain ⟨hip, hudp, htcp, hid⟩ := h
  have hA := encBytes_length n.ip (by omega)
  have hB := encUint_length n.udp (by omega)
  have hC := encUint_length n.tcp (by omega)
  have hD := encBytes_length n.id (by omega)
  unfold Discv4.nodeItem Discv4.encNode Rlp.encList
  simp only [List.flatten_cons, List.flatten_nil]
  rw [listItem_encPayload _ t (by simp only [List.length_append, List.length_nil]; omega)]
  simp only [bind, Except.bind]
  rw [bytesItem_enc n.ip _ (by omega)]
  simp only [bind, Except.bind]
  rw [uintItem_enc 2 n.udp _ (by rw [← pow16_eq]; exact hudp) (by omega)]
  simp only [bind, Except.bind]
  rw [uintItem_enc 2 n.tcp _ (by rw [← pow16_eq]; exact htcp) (by omega)]
  simp only [bind, Except.bind]
  rw [byteArrayItem_enc n.id [] hid]
  simp [bind, Except.bind]

theorem encNode_ne_nil (n : Discv4.RpcNode) : Discv4.encNode n ≠ [] :=
  encPayload_ne_nil 0xc0 _

theorem nodeSeq_enc (ns : List Discv4.RpcNode) (fuel : Nat)
    (hok : ∀ n ∈ ns, Discv4.NodeOK n)
    (hfuel : (ns.map Discv4.encNode).flatten.length ≤ fuel) :
    Discv4.nodeSeq fuel (ns.map Discv4.encNode).flatten = .ok ns := by
  induction ns generalizing fuel with
  | nil => simp [Discv4.nodeSeq]
  | cons n ns ih =>
    have hn : Discv4.NodeOK n := hok n (by simp)
    have hnn := encNode_ne_nil n
    rw [List.map_cons, List.flatten_cons] at hfuel ⊢
    match hen : Discv4.encNode n, hnn with
    | b :: e', _ =>
      have hitem := nodeItem_enc n (ns.map Discv4.encNode).flatten hn
      rw [hen, List.cons_append] at hitem
      rw [List.length_append] at hfuel
      cases fuel with
      | zero => rw [hen] at hfuel; simp at hfuel
      | succ f =>
        rw [List.cons_append]
        simp only [Discv4.nodeSeq, hitem, bind, Except.bind]
        rw [ih f (fun x hx => hok x (List.mem_cons_of_mem _ hx))
          (by rw [hen] at hfuel; simp at hfuel ⊢; omega)]

theorem pingDecode_enc (v : Nat) (f t : Discv4.RpcEndpoint) (e : Nat)
    (extras : List (List Nat)) (hv : v < 2 ^ 64) (hf : Discv4.EpOK f) (ht : Discv4.EpOK t)
    (he : e < 2 ^ 64) (hx : Discv4.ExtrasOK extras) :
    Discv4.pingDecode (Discv4.encPingBody v f t e extras) = .ok ⟨v, f, t, e, extras⟩ := by
  obtain ⟨hxi, hxl⟩ := hx
  have hA := encUint_length v hv
  have hB := encEndpoint_length f hf
  have hC := encEndpoint_length t ht
  have hD := encUint_length e he
  have hfip : f.ip.length < 2 ^ 32 := hf.1
  have htip : t.ip.length < 2 ^ 32 := ht.1
  unfold Discv4.pingDecode Discv4.encPingBody Rlp.encList
  rw [List.flatten_append]
  simp only [List.flatten_cons, List.flatten_nil, List.append_nil, List.append_assoc]
  rw [listItem_enc_self _ (by simp only [List.length_append]; omega)]
  simp only [bind, Except.bind]
  rw [uintItem_enc 8 v _ (by rw [← pow64_eq]; exact hv) (by omega)]
  simp only [bind, Except.bind]
  rw [endpointItem_enc f _ hf]
  simp only [bind, Except.bind]
  rw [endpointItem_enc t _ ht]
  simp only [bind, Except.bind]
  rw [uintItem_enc 8 e _ (by rw [← pow64_eq]; exact he) (by omega)]
  simp only [bind, Except.bind]
  rw [tailSeq_enc extras extras.flatten.length hxi (le_refl _)]

theorem pongDecode_enc (t : Discv4.RpcEndpoint) (tok : List Nat) (e : Nat)
    (extras : List (List Nat)) (ht : Discv4.EpOK t) (htok : tok.length < 2 ^ 32)
    (he : e < 2 ^ 64) (hx : Discv4.ExtrasOK extras) :
    Discv4.pongDecode (Discv4.encPongBody t tok e extras) = .ok ⟨t, tok, e, extras⟩ := by
  obtain ⟨hxi, hxl⟩ := hx
  have hA := encEndpoint_length t ht
  have hB := encBytes_length tok (by omega)
  have hC := encUint_length e he
  have htip : t.ip.length < 2 ^ 32 := ht.1
  unfold Discv4.pongDecode Discv4.encPongBody Rlp.encList
  rw [List.flatten_append]
  simp only [List.flatten_cons, List.flatten_nil, List.append_nil, List.append_assoc]
  rw [listItem_enc_self _ (by simp only [List.length_append]; omega)]
  simp only [bind, Except.bind]
  rw [endpointItem_enc t _ ht]
  simp only [bind, Except.bind]
  rw [bytesItem_enc tok _ (by omega)]
  simp only [bind, Except.bind]
  rw [uintItem_enc 8 e _ (by rw [← pow64_eq]; exact he) (by omega)]
  simp only [bind, Except.bind]
  rw [tailSeq_enc extras extras.flatten.length hxi (le_refl _)]

theorem findNodeDecode_enc (tg : List Nat) (e : Nat) (extras : List (List Nat))
    (htg : tg.length = 64) (he : e < 2 ^ 64) (hx : Discv4.ExtrasOK extras) :
    Discv4.findNodeDecode (Discv4.encFindNodeBody tg e extras) = .ok ⟨tg, e, extras⟩ := by
  obtain ⟨hxi, hxl⟩ := hx
  have hA := encBytes_length tg (by omega)
  have hB := encUint_length e he
  unfold Discv4.findNodeDecode Discv4.encFindNodeBody Rlp.encList
  rw [List.flatten_append]
  simp only [List.flatten_cons, List.flatten_nil, List.append_nil, List.append_assoc]
  rw [listItem_enc_self _ (by simp only [List.length_append]; omega)]
  simp only [bind, Except.bind]
  rw [byteArrayItem_enc tg _ htg]
  simp only [bind, Except.bind]
  rw [uintItem_enc 8 e _ (by rw [← pow64_eq]; exact he) (by omega)]
  simp only [bind, Except.bind]
  rw [tailSeq_enc extras extras.flatten.length hxi (le_refl _)]

theorem neighborsDecode_enc (ns : List Discv4.RpcNode) (e : Nat) (extras : List (List Nat))
    (hns : ∀ n ∈ ns, Discv4.NodeOK n) (hlen : (ns.map Discv4.encNode).flatten.length < 2 ^ 60)
    (he : e < 2 ^ 64) (hx : Discv4.ExtrasOK extras) :
    Discv4.neighborsDecode (Discv4.encNeighborsBody ns e extras) = .ok ⟨ns, e, extras⟩ := by
  obtain ⟨hxi, hxl⟩ := hx
  have hA : (Rlp.encList (ns.map Discv4.encNode)).length ≤ (ns.map Discv4.encNode).flatten.length + 9 := by
    unfold Rlp.encList
    rw [encPayload_length]
    have := headLenOf_le (ns.map Discv4.encNode).flatten (by omega)
    omega
  have hB := encUint_length e he
  unfold Discv4.neighborsDecode Discv4.encNeighborsBody
  rw [show Rlp.encList ([Rlp.encList (List.map Discv4.encNode ns), Rlp.encUint e] ++ extras) =
    Rlp.encPayload 0xc0 (([Rlp.encList (List.map Discv4.encNode ns), Rlp.encUint e] ++ extras).flatten) from rfl]
  rw [List.flatten_append]
  simp only [List.flatten_cons, List.flatten_nil, List.append_nil, List.append_assoc]
  rw [listItem_enc_self _ (by simp only [List.length_append]; omega)]
  simp only [bind, Except.bind]
  rw [show Rlp.encList (List.map Discv4.encNode ns) = Rlp.encPayload 0xc0 ((List.map Discv4.encNode ns).flatten) from rfl]
  rw [listItem_encPayload _ _ (by omega)]
  simp only [bind, Except.bind]
  rw [nodeSeq_enc ns (ns.map Discv4.encNode).flatten.length hns (le_refl _)]
  simp only [bind, Except.bind]
  rw [uintItem_enc 8 e _ (by rw [← pow64_eq]; exact he) (by omega)]
  simp only [bind, Except.bind]
  rw [tailSeq_enc extras extras.flatten.length hxi (le_refl _)]

theorem uintItem_nil (maxB : Nat) : Rlp.uintItem maxB [] = .error .eol := rfl

theorem uintItem_list (maxB : Nat) (p t : List Nat) (h : p.length < 2 ^ 64) :
    Rlp.uintItem maxB (Rlp.encPayload 0xc0 p ++ t) = .error .expectedString := by
  unfold Rlp.uintItem
  rw [parseHead_encPayload_list p t h]
  simp [bind, Except.bind]

theorem pingDecode_missing (v : Nat) (f t : Discv4.RpcEndpoint)
    (hv : v < 2 ^ 64) (hf : Discv4.EpOK f) (ht : Discv4.EpOK t) :
    Discv4.pingDecode (Rlp.encList [Rlp.encUint v, Discv4.encEndpoint f, Discv4.encEndpoint t]) =
      .error .eol := by
  have hA := encUint_length v hv
  have hB := encEndpoint_length f hf
  have hC := encEndpoint_length t ht
  have hfip : f.ip.length < 2 ^ 32 := hf.1
  have htip : t.ip.length < 2 ^ 32 := ht.1
  unfold Discv4.pingDecode Rlp.encList
  simp only [List.flatten_cons, List.flatten_nil, List.append_nil, List.append_assoc]
  rw [listItem_enc_self _ (by simp only [List.length_append]; omega)]
  simp only [bind, Except.bind]
  rw [uintItem_enc 8 v _ (by rw [← pow64_eq]; exact hv) (by omega)]
  simp only [bind, Except.bind]
  rw [endpointItem_enc f _ hf]
  simp only [bind, Except.bind]
  have := endpointItem_enc t [] ht
  rw [List.append_nil] at this
  rw [this]
  simp only [bind, Except.bind]
  rw [uintItem_nil 8]

theorem pingDecode_malformed (v : Nat) (f t : Discv4.RpcEndpoint) (items : List (List Nat))
    (hv : v < 2 ^ 64) (hf : Discv4.EpOK f) (ht : Discv4.EpOK t)
    (hit : items.flatten.length < 2 ^ 60) :
    Discv4.pingDecode (Rlp.encList
        [Rlp.encUint v, Discv4.encEndpoint f, Discv4.encEndpoint t, Rlp.encList items]) =
      .error .expectedString := by
  have hA := encUint_length v hv
  have hB := encEndpoint_length f hf
  have hC := encEndpoint_length t ht
  have hD : (Rlp.encList items).length ≤ items.flatten.length + 9 := by
    unfold Rlp.encList
    rw [encPayload_length]
    have := headLenOf_le items.flatten (by omega)
    omega
  have hfip : f.ip.length < 2 ^ 32 := hf.1
  have htip : t.ip.length < 2 ^ 32 := ht.1
  unfold Discv4.pingDecode
  rw [show Rlp.encList [Rlp.encUint v, Discv4.encEndpoint f, Discv4.encEndpoint t,
      Rlp.encList items] = Rlp.encPayload 0xc0 ([Rlp.encUint v, Discv4.encEndpoint f,
      Discv4.encEndpoint t, Rlp.encList items].flatten) from rfl]
  simp only [List.flatten_cons, List.flatten_nil, List.append_nil, List.append_assoc]
  rw [listItem_enc_self _ (by simp only [List.length_append]; omega)]
  simp only [bind, Except.bind]
  rw [uintItem_enc 8 v _ (by rw [← pow64_eq]; exact hv) (by omega)]
  simp only [bind, Except.bind]
  rw [endpointItem_enc f _ hf]
  simp only [bind, Except.bind]
  rw [endpointItem_enc t _ ht]
  simp only [bind, Except.bind]
  have := uintItem_list 8 items.flatten [] (by omega)
  rw [List.append_nil] at this
  rw [show Rlp.encList items = Rlp.encPayload 0xc0 items.flatten from rfl, this]

theorem pongDecode_missing (t : Discv4.RpcEndpoint) (tok : List Nat)
    (ht : Discv4.EpOK t) (htok : tok.length < 2 ^ 32) :
    Discv4.pongDecode (Rlp.encList [Discv4.encEndpoint t, Rlp.encBytes tok]) = .error .eol := by
  have hA := encEndpoint_length t ht
  have hB := encBytes_length tok (by omega)
  have htip : t.ip.length < 2 ^ 32 := ht.1
  unfold Discv4.pongDecode Rlp.encList
  simp only [List.flatten_cons, List.flatten_nil, List.append_nil, List.append_assoc]
  rw [listItem_enc_self _ (by simp only [List.length_append]; omega)]
  simp only [bind, Except.bind]
  rw [endpointItem_enc t _ ht]
  simp only [bind, Except.bind]
  have := bytesItem_enc tok [] (by omega)
  rw [List.append_nil] at this
  rw [this]
  simp only [bind, Except.bind]
  rw [uintItem_nil 8]

theorem findNodeDecode_missing (tg : List Nat) (htg : tg.length = 64) :
    Discv4.findNodeDecode (Rlp.encList [Rlp.encBytes tg]) = .error .eol := by
  have hA := encBytes_length tg (by omega)
  unfold Discv4.findNodeDecode Rlp.encList
  simp only [List.flatten_cons, List.flatten_nil, List.append_nil, List.append_assoc]
  rw [listItem_enc_self _ (by omega)]
  simp only [bind, Except.bind]
  have := byteArrayItem_enc tg [] htg
  rw [List.append_nil] at this
  rw [this]
  simp only [bind, Except.bind]
  rw [uintItem_nil 8]

theorem neighborsDecode_missing (ns : List Discv4.RpcNode)
    (hns : ∀ n ∈ ns, Discv4.NodeOK n)
    (hlen : (ns.map Discv4.encNode).flatten.length < 2 ^ 60) :
    Discv4.neighborsDecode (Rlp.encList [Rlp.encList (ns.map Discv4.encNode)]) = .error .eol := by
  have hA : (Rlp.encList (ns.map Discv4.encNode)).length ≤ (ns.map Discv4.encNode).flatten.length + 9 := by
    unfold Rlp.encList
    rw [encPayload_length]
    have := headLenOf_le (ns.map Discv4.encNode).flatten (by omega)
    omega
  unfold Discv4.neighborsDecode
  rw [show Rlp.encList [Rlp.encList (List.map Discv4.encNode ns)] =
    Rlp.encPayload 0xc0 ([Rlp.encList (List.map Discv4.encNode ns)].flatten) from rfl]
  simp only [List.flatten_cons, List.flatten_nil, List.append_nil]
  rw [listItem_enc_self _ (by omega)]
  simp only [bind, Except.bind]
  have h2 := listItem_enc_self (List.map Discv4.encNode ns).flatten (by omega)
  rw [show Rlp.encList (List.map Discv4.encNode ns) =
    Rlp.encPayload 0xc0 ((List.map Discv4.encNode ns).flatten) from rfl, h2]
  simp only [bind, Except.bind]
  rw [nodeSeq_enc ns (ns.map Discv4.encNode).flatten.length hns (le_refl _)]
  simp only [bind, Except.bind]
  rw [uintItem_nil 8]

theorem recoverNodeID_ok (r : List Nat → List Nat → Except Nat (List Nat))
    (h s pk : List Nat) (hr : r h s = .ok pk) (hl : pk.length = 65) :
    Discv4.recoverNodeID r h s = .ok ((pk.drop 1).take 64) := by
  unfold Discv4.recoverNodeID
  rw [hr]
  simp [hl]

theorem decode_unfold (k : List Nat → List Nat)
    (r : List Nat → List Nat → Except Nat (List Nat))
    (mac sig body : List Nat) (d : Nat) (hm : mac.length = 32) (hs : sig.length = 65)
    (hhash : k (sig ++ d :: body) = mac) :
    Discv4.decode k r (mac ++ sig ++ d :: body) =
      match Discv4.recoverNodeID r (k (d :: body)) sig with
      | .error e => ⟨mac, none, Discv4.zeroNodeID, some e, mac ++ sig ++ d :: body⟩
      | .ok fromID =>
        match Discv4.decodeBody d body with
        | none => ⟨mac, none, Discv4.zeroNodeID, some (.unknownType d), mac ++ sig ++ d :: body⟩
        | some (.error e) =>
          ⟨mac, Discv4.newPacket d, fromID, some (.rlpError e), mac ++ sig ++ d :: body⟩
        | some (.ok pkt) => ⟨mac, some pkt, fromID, none, mac ++ sig ++ d :: body⟩ := by
  unfold Discv4.decode
  have hlen : (mac ++ sig ++ d :: body).length = 98 + body.length := by
    simp only [List.length_append, List.length_cons, hm, hs]
    omega
  rw [if_neg (by rw [hlen]; unfold Discv4.headSize Discv4.macSize Discv4.sigSize; omega)]
  have htake : (mac ++ sig ++ d :: body).take Discv4.macSize = mac := by
    rw [List.append_assoc]
    exact List.take_left' hm
  have hdrop : (mac ++ sig ++ d :: body).drop Discv4.macSize = sig ++ d :: body := by
    rw [List.append_assoc]
    exact List.drop_left' hm
  have hdrop97 : (mac ++ sig ++ d :: body).drop Discv4.headSize = d :: body :=
    List.drop_left' (by rw [List.length_append, hm, hs]; rfl)
  rw [htake, hdrop, hdrop97, hhash]
  rw [if_neg (by simp)]
  rw [List.take_left' (show sig.length = Discv4.sigSize by rw [hs]; rfl)]
  simp only [List.headD_cons, List.drop_succ_cons, List.drop_zero]

theorem xorKeyStream_length (ks : Nat → Nat) (off : Nat) (bs : List Nat) :
    (Discv5.xorKeyStream ks off bs).length = bs.length := by
  induction bs generalizing off with
  | nil => rfl
  | cons b bs ih => simp [Discv5.xorKeyStream, ih]

theorem xorKeyStream_involution (ks : Nat → Nat) (off : Nat) (bs : List Nat) :
    Discv5.xorKeyStream ks off (Discv5.xorKeyStream ks off bs) = bs := by
  induction bs generalizing off with
  | nil => rfl
  | cons b bs ih =>
    simp only [Discv5.xorKeyStream, ih]
    rw [Nat.xor_cancel_right]

theorem checkValid_none_authSize (h : Discv5.StaticHeader) (L : Nat)
    (hcv : Discv5.checkValid h L = none) : h.authSize ≤ L := by
  unfold Discv5.checkValid at hcv
  split_ifs at hcv
  omega

theorem drop_take_eq_self (l : List Nat) (i : Nat) : (l.drop i).take (l.length - i) = l.drop i := by
  rw [← List.length_drop]
  exact List.take_length _

theorem discv4_checked_eq (k : List Nat → List Nat)
    (r : List Nat → List Nat → Except Nat (List Nat)) (buf : List Nat) :
    Discv4.decodeChecked k r buf = some (Discv4.decode k r buf) := by
  unfold Discv4.decodeChecked Discv4.decode
  by_cases h : buf.length < Discv4.headSize + 1
  · rw [if_pos h, if_pos h]
  · rw [if_neg h, if_neg h]
    have h98 : 98 ≤ buf.length := by
      simp only [Discv4.headSize, Discv4.macSize, Discv4.sigSize] at h
      omega
    have hs1 : Discv4.slice? buf 0 Discv4.macSize = some (buf.take Discv4.macSize) := by
      unfold Discv4.slice?
      rw [if_pos ⟨by omega, by simp only [Discv4.macSize]; omega⟩]
      simp
    have hs2 : Discv4.slice? buf Discv4.macSize Discv4.headSize =
        some ((buf.drop Discv4.macSize).take Discv4.sigSize) := by
      unfold Discv4.slice?
      rw [if_pos ⟨by simp only [Discv4.macSize, Discv4.headSize, Discv4.sigSize]; omega,
        by simp only [Discv4.headSize, Discv4.macSize, Discv4.sigSize]; omega⟩]
      rfl
    have hs3 : Discv4.sliceFrom? buf Discv4.headSize = some (buf.drop Discv4.headSize) := by
      unfold Discv4.sliceFrom? Discv4.slice?
      rw [if_pos ⟨by simp only [Discv4.headSize, Discv4.macSize, Discv4.sigSize]; omega, le_refl _⟩]
      rw [drop_take_eq_self]
    have hs4 : Discv4.sliceFrom? buf Discv4.macSize = some (buf.drop Discv4.macSize) := by
      unfold Discv4.sliceFrom? Discv4.slice?
      rw [if_pos ⟨by simp only [Discv4.macSize]; omega, le_refl _⟩]
      rw [drop_take_eq_self]
    rw [hs1, hs2, hs3, hs4]
    simp only [bind, Option.bind]
    by_cases hbh : buf.take Discv4.macSize ≠ k (buf.drop Discv4.macSize)
    · rw [if_pos hbh, if_pos hbh]
    · rw [if_neg hbh, if_neg hbh]
      cases hrec : Discv4.recoverNodeID r (k (buf.drop Discv4.headSize))
          ((buf.drop Discv4.macSize).take Discv4.sigSize) with
      | error e => rfl
      | ok fromID =>
        cases hsd : buf.drop Discv4.headSize with
        | nil =>
          have := congrArg List.length hsd
          simp only [List.length_drop, List.length_nil, Discv4.headSize, Discv4.macSize,
            Discv4.sigSize] at this
          omega
        | cons a l =>
          have hidx : Discv4.index? (a :: l) 0 = some a := rfl
          have hsf : Discv4.sliceFrom? (a :: l) 1 = some l := by
            unfold Discv4.sliceFrom? Discv4.slice?
            rw [if_pos ⟨by simp, le_refl _⟩]
            simp
          rw [hidx, hsf]
          simp only [bind, Option.bind, List.headD_cons, List.drop_succ_cons, List.drop_zero]
          cases hdb : Discv4.decodeBody a l with
          | none => rfl
          | some x => cases x <;> rfl

theorem discv5_checked_eq (aesCtr : Discv5.KeyStream) (buf nid : List Nat) :
    Discv5.decodeChecked aesCtr buf nid = some (Discv5.decode aesCtr buf nid) := by
  unfold Discv5.decodeChecked Discv5.decode
  by_cases h : buf.length < Discv5.sizeofStaticPacketData
  · rw [if_pos h, if_pos h]
  · rw [if_neg h, if_neg h]
    have h39 : 39 ≤ buf.length := by
      simp only [Discv5.sizeofStaticPacketData, Discv5.sizeofMaskingIV,
        Discv5.sizeofStaticHeader] at h
      omega
    have hs1 : Discv4.slice? buf 0 Discv5.sizeofMaskingIV =
        some (buf.take Discv5.sizeofMaskingIV) := by
      unfold Discv4.slice?
      rw [if_pos ⟨by omega, by simp only [Discv5.sizeofMaskingIV]; omega⟩]
      simp
    have hs2 : Discv4.slice? buf Discv5.sizeofMaskingIV Discv5.sizeofStaticPacketData =
        some ((buf.drop Discv5.sizeofMaskingIV).take Discv5.sizeofStaticHeader) := by
      unfold Discv4.slice?
      rw [if_pos ⟨by simp only [Discv5.sizeofMaskingIV, Discv5.sizeofStaticPacketData,
        Discv5.sizeofStaticHeader]; omega,
        by simp only [Discv5.sizeofStaticPacketData, Discv5.sizeofMaskingIV,
          Discv5.sizeofStaticHeader]; omega⟩]
      rfl
    rw [hs1, hs2]
    simp only [bind, Option.bind]
    cases hcv : Discv5.checkValid
        (Discv5.parseStaticHeader (Discv5.xorKeyStream
          (Discv5.mask aesCtr nid (buf.take Discv5.sizeofMaskingIV)) 0
          ((buf.drop Discv5.sizeofMaskingIV).take Discv5.sizeofStaticHeader)))
        (buf.length - Discv5.sizeofStaticPacketData) with
    | some e => rfl
    | none =>
      have hbuf1len : (buf.take Discv5.sizeofMaskingIV ++
          Discv5.xorKeyStream (Discv5.mask aesCtr nid (buf.take Discv5.sizeofMaskingIV)) 0
            ((buf.drop Discv5.sizeofMaskingIV).take Discv5.sizeofStaticHeader) ++
          buf.drop Discv5.sizeofStaticPacketData).length = buf.length := by
        simp only [List.length_append, List.length_take, xorKeyStream_length, List.length_drop,
          Discv5.sizeofMaskingIV, Discv5.sizeofStaticHeader, Discv5.sizeofStaticPacketData]
        omega
      have has := checkValid_none_authSize _ _ hcv
      have hs3 : Discv4.slice? (buf.take Discv5.sizeofMaskingIV ++
          Discv5.xorKeyStream (Discv5.mask aesCtr nid (buf.take Discv5.sizeofMaskingIV)) 0
            ((buf.drop Discv5.sizeofMaskingIV).take Discv5.sizeofStaticHeader) ++
          buf.drop Discv5.sizeofStaticPacketData) Discv5.sizeofStaticPacketData
          (Discv5.sizeofStaticPacketData + (Discv5.parseStaticHeader (Discv5.xorKeyStream
            (Discv5.mask aesCtr nid (buf.take Discv5.sizeofMaskingIV)) 0
            ((buf.drop Discv5.sizeofMaskingIV).take Discv5.sizeofStaticHeader))).authSize) =
          some (((buf.take Discv5.sizeofMaskingIV ++
            Discv5.xorKeyStream (Discv5.mask aesCtr nid (buf.take Discv5.sizeofMaskingIV)) 0
              ((buf.drop Discv5.sizeofMaskingIV).take Discv5.sizeofStaticHeader) ++
            buf.drop Discv5.sizeofStaticPacketData).drop Discv5.sizeofStaticPacketData).take
            (Discv5.parseStaticHeader (Discv5.xorKeyStream
              (Discv5.mask aesCtr nid (buf.take Discv5.sizeofMaskingIV)) 0
              ((buf.drop Discv5.sizeofMaskingIV).take Discv5.sizeofStaticHeader))).authSize) := by
        unfold Discv4.slice?
        rw [if_pos ⟨by omega, by rw [hbuf1len]; simp only [Discv5.sizeofStaticPacketData,
          Discv5.sizeofMaskingIV, Discv5.sizeofStaticHeader] at has ⊢; omega⟩]
        rw [Nat.add_sub_cancel_left]
      rw [hs3]

theorem recoverNodeID_error_shape (r : List Nat → List Nat → Except Nat (List Nat))
    (h s : List Nat) (e : Discv4.Err) (he : Discv4.recoverNodeID r h s = .error e) :
    (∃ c, e = .recoverFailed c) ∨ (∃ n, e = .pubkeyLen n) := by
  unfold Discv4.recoverNodeID at he
  cases hr : r h s with
  | error c =>
    rw [hr] at he
    simp at he
    exact .inl ⟨c, he.symm⟩
  | ok pk =>
    rw [hr] at he
    dsimp only at he
    split_ifs at he with h64
    simp at he
    exact .inr ⟨pk.length, he.symm⟩

/-- C1: a discv5 packet whose unmasked header passes validation and whose
flag byte is 3 (outside the three defined flag values) does not get the
`errInvalidFlag` error the spec promises: `Decode` never parses the auth
data by flag and instead returns its placeholder `errors.New("TODO")`.
The buffer below has a zero keystream, protocol id `"discv5"`, version 1,
flag 3, nonce 0, auth-size 0 and 48 trailing bytes. -/
theorem discv5_flag3_yields_todo :
    Discv5.decode (fun _ _ _ => 0)
        (List.replicate 16 0 ++
          ([100, 105, 115, 99, 118, 53, 0, 1, 3] ++ List.replicate 12 0 ++ [0, 0]) ++
          List.replicate 48 0)
        (List.replicate 32 0) =
      (.error .todo,
        List.replicate 16 0 ++
          ([100, 105, 115, 99, 118, 53, 0, 1, 3] ++ List.replicate 12 0 ++ [0, 0]) ++
          List.replicate 48 0) ∧
    (Discv5.parseStaticHeader
        ([100, 105, 115, 99, 118, 53, 0, 1, 3] ++ List.replicate 12 0 ++ [0, 0])).flag = 3 ∧
    Discv5.checkValid
        (Discv5.parseStaticHeader
          ([100, 105, 115, 99, 118, 53, 0, 1, 3] ++ List.replicate 12 0 ++ [0, 0])) 48 = none ∧
    (3 ≠ Discv5.flagMessage ∧ 3 ≠ Discv5.flagWhoareyou ∧ 3 ≠ Discv5.flagHandshake) ∧
    Discv5.Err.todo ≠ Discv5.Err.invalidFlag := by
  decide

/-- C2: neither decoder can panic: for every input buffer, destination
id and external primitives, the panic-aware embeddings (in which every
Go slice or index of the caller's buffer is bounds-checked, and `none`
marks an out-of-bounds access) return `some` result, equal to the one
of the direct embeddings. -/
theorem discv4_discv5_decode_no_panic :
    (∀ (k : List Nat → List Nat) (r : List Nat → List Nat → Except Nat (List Nat))
      (buf : List Nat), Discv4.decodeChecked k r buf = some (Discv4.decode k r buf)) ∧
    (∀ (aesCtr : Discv5.KeyStream) (buf nid : List Nat),
      Discv5.decodeChecked aesCtr buf nid = some (Discv5.decode aesCtr buf nid)) :=
  ⟨discv4_checked_eq, discv5_checked_eq⟩

/-- C5: for buffers of at least 98 bytes, discv4 `Decode` reports
`bad hash` exactly when the first 32 bytes differ from the keccak256
hash of everything from offset 32 on; when they agree, decoding
proceeds past the mac check. -/
theorem discv4_badhash_iff (k : List Nat → List Nat)
    (r : List Nat → List Nat → Except Nat (List Nat)) (buf : List Nat)
    (h98 : 98 ≤ buf.length) :
    (Discv4.decode k r buf).err = some .badHash ↔
      buf.take Discv4.macSize ≠ k (buf.drop Discv4.macSize) := by
  unfold Discv4.decode
  rw [if_neg (by simp only [Discv4.headSize, Discv4.macSize, Discv4.sigSize]; omega)]
  by_cases hbh : buf.take Discv4.macSize ≠ k (buf.drop Discv4.macSize)
  · rw [if_pos hbh]
    simpa using hbh
  · rw [if_neg hbh]
    constructor
    · intro he
      exfalso
      cases hrec : Discv4.recoverNodeID r (k (buf.drop Discv4.headSize))
          ((buf.drop Discv4.macSize).take Discv4.sigSize) with
      | error e =>
        rw [hrec] at he
        simp at he
        rcases recoverNodeID_error_shape _ _ _ e hrec with ⟨c, rfl⟩ | ⟨n, rfl⟩ <;> simp at he
      | ok fromID =>
        rw [hrec] at he
        dsimp only at he
        cases hdb : Discv4.decodeBody ((buf.drop Discv4.headSize).headD 0)
            ((buf.drop Discv4.headSize).drop 1) with
        | none => rw [hdb] at he; simp at he
        | some x =>
          rw [hdb] at he
          cases x with
          | error e => simp at he
          | ok pkt => simp at he
    · intro h'
      exact absurd h' hbh

/-- C7: `recoverNodeID` returns `pubkey[1:65]` when the external
secp256k1 recovery succeeds with a key whose length minus the 1-byte
prefix is 64; a successful recovery with any other length yields the
distinct length-mismatch error carrying that length; and a recovery
failure is propagated as its own error. -/
theorem recoverNodeID_contract (recover : List Nat → List Nat → Except Nat (List Nat))
    (hash sig : List Nat) :
    (∀ pk, recover hash sig = .ok pk →
      (((pk.length : Int) - 1 = 64 →
        Discv4.recoverNodeID recover hash sig = .ok ((pk.drop 1).take 64)) ∧
       ((pk.length : Int) - 1 ≠ 64 →
        Discv4.recoverNodeID recover hash sig = .error (.pubkeyLen pk.length)))) ∧
    (∀ e, recover hash sig = .error e →
      Discv4.recoverNodeID recover hash sig = .error (.recoverFailed e)) := by
  constructor
  · intro pk hr
    constructor
    · intro h64
      unfold Discv4.recoverNodeID
      rw [hr]
      dsimp only
      rw [if_neg (not_ne_iff.mpr h64)]
    · intro h64
      unfold Discv4.recoverNodeID
      rw [hr]
      dsimp only
      rw [if_pos h64]
  · intro e he
    unfold Discv4.recoverNodeID
    rw [he]

/-- Witness for C7 at concrete recovery oracles: a 65-byte pubkey gives
the 64-byte id, a 66-byte pubkey gives the length error, and a failed
recovery propagates its code. -/
theorem recoverNodeID_contract_witness :
    Discv4.recoverNodeID (fun _ _ => .ok (3 :: List.replicate 64 5)) [] [] =
      .ok (List.replicate 64 5) ∧
    Discv4.recoverNodeID (fun _ _ => .ok (List.replicate 66 3)) [] [] =
      .error (.pubkeyLen 66) ∧
    Discv4.recoverNodeID (fun _ _ => .error 7) [] [] = .error (.recoverFailed 7) := by
  refine ⟨?_, ?_, ?_⟩
  · have h := ((recoverNodeID_contract (fun _ _ => .ok (3 :: List.replicate 64 5)) [] []).1
      (3 :: List.replicate 64 5) rfl).1 (by decide)
    rw [h]
    decide
  · exact ((recoverNodeID_contract (fun _ _ => .ok (List.replicate 66 3)) [] []).1
      (List.replicate 66 3) rfl).2 (by decide)
  · exact (recoverNodeID_contract (fun _ _ => .error 7) [] []).2 7 rfl

/-- C9: a buffer below 98 bytes yields exactly the `packet too small`
error with nil hash, nil packet, zero node id and an untouched buffer,
independent of the buffer's contents; a buffer of 98 bytes or more is
never reported as too small. -/
theorem discv4_too_small (k : List Nat → List Nat)
    (r : List Nat → List Nat → Except Nat (List Nat)) (buf : List Nat) :
    (buf.length < 98 →
      Discv4.decode k r buf = ⟨[], none, Discv4.zeroNodeID, some .tooSmall, buf⟩) ∧
    (98 ≤ buf.length → (Discv4.decode k r buf).err ≠ some .tooSmall) := by
  constructor
  · intro h
    unfold Discv4.decode
    rw [if_pos (by simp only [Discv4.headSize, Discv4.macSize, Discv4.sigSize]; omega)]
  · intro h
    unfold Discv4.decode
    rw [if_neg (by simp only [Discv4.headSize, Discv4.macSize, Discv4.sigSize]; omega)]
    by_cases hbh : buf.take Discv4.macSize ≠ k (buf.drop Discv4.macSize)
    · rw [if_pos hbh]
      simp
    · rw [if_neg hbh]
      cases hrec : Discv4.recoverNodeID r (k (buf.drop Discv4.headSize))
          ((buf.drop Discv4.macSize).take Discv4.sigSize) with
      | error e =>
        rcases recoverNodeID_error_shape _ _ _ e hrec with ⟨c, rfl⟩ | ⟨n, rfl⟩ <;> simp
      | ok fromID =>
        dsimp only
        cases hdb : Discv4.decodeBody ((List.drop Discv4.headSize buf).headD 0)
            (List.drop 1 (List.drop Discv4.headSize buf)) with
        | none => simp
        | some x => cases x <;> simp

/-- Witness for C9: the empty buffer takes the too-small path with
zero-valued outputs, and a 98-byte zero buffer does not. -/
theorem discv4_too_small_witness :
    Discv4.decode (fun _ => []) (fun _ _ => .error 0) [] =
      ⟨[], none, Discv4.zeroNodeID, some .tooSmall, []⟩ ∧
    (Discv4.decode (fun _ => []) (fun _ _ => .error 0) (List.replicate 98 0)).err ≠
      some .tooSmall :=
  ⟨(discv4_too_small _ _ []).1 (by decide),
   (discv4_too_small _ _ (List.replicate 98 0)).2 (by decide)⟩

theorem decodeBody_none_iff (t : Nat) (bs : List Nat) :
    Discv4.decodeBody t bs = none ↔ t ∉ ([1, 2, 3, 4] : List Nat) := by
  rcases t with _ | _ | _ | _ | _ | n <;> simp [Discv4.decodeBody]

/-- C3 (amended): after the length, hash and recovery checks, discv4
`Decode` dispatches only the four tags with a `case` in its type switch
(PING=1, PONG=2, FIND_NODE=3, NEIGHBORS=4); every other tag — including
the declared but undispatched ENR_REQUEST=5 and ENR_RESPONSE=6 — yields
`unknown type: tag`, and any packet value produced carries the kind of
the dispatched tag. -/
theorem discv4_dispatch_known_tags (k : List Nat → List Nat)
    (r : List Nat → List Nat → Except Nat (List Nat))
    (mac sig body pk : List Nat) (d : Nat)
    (hm : mac.length = 32) (hs : sig.length = 65)
    (hhash : k (sig ++ d :: body) = mac)
    (hr : r (k (d :: body)) sig = .ok pk) (hpk : pk.length = 65) :
    ((Discv4.decode k r (mac ++ sig ++ d :: body)).err = some (.unknownType d) ↔
      d ∉ ([Discv4.PacketPing, Discv4.PacketPong, Discv4.PacketFindNode,
        Discv4.PacketNeighbors] : List Nat)) ∧
    (∀ pkt, (Discv4.decode k r (mac ++ sig ++ d :: body)).p = some pkt →
      pkt.kindTag = d) := by
  rw [decode_unfold k r mac sig body d hm hs hhash]
  rw [recoverNodeID_ok r _ sig pk hr hpk]
  dsimp only
  simp only [Discv4.PacketPing, Discv4.PacketPong, Discv4.PacketFindNode, Discv4.PacketNeighbors]
  rcases d with _ | _ | _ | _ | _ | n
  · simp [Discv4.decodeBody]
  · cases hpd : Discv4.pingDecode body with
    | error e => simp [Discv4.decodeBody, hpd, Discv4.newPacket, Discv4.Packet.kindTag, Except.map]
    | ok p => simp [Discv4.decodeBody, hpd, Discv4.Packet.kindTag, Except.map]
  · cases hpd : Discv4.pongDecode body with
    | error e => simp [Discv4.decodeBody, hpd, Discv4.newPacket, Discv4.Packet.kindTag, Except.map]
    | ok p => simp [Discv4.decodeBody, hpd, Discv4.Packet.kindTag, Except.map]
  · cases hpd : Discv4.findNodeDecode body with
    | error e => simp [Discv4.decodeBody, hpd, Discv4.newPacket, Discv4.Packet.kindTag, Except.map]
    | ok p => simp [Discv4.decodeBody, hpd, Discv4.Packet.kindTag, Except.map]
  · cases hpd : Discv4.neighborsDecode body with
    | error e => simp [Discv4.decodeBody, hpd, Discv4.newPacket, Discv4.Packet.kindTag, Except.map]
    | ok p => simp [Discv4.decodeBody, hpd, Discv4.Packet.kindTag, Except.map]
  · simp [Discv4.decodeBody]

/-- C3 counterexample: a 98-byte packet that passes the length, hash and
recovery checks and carries the type tag `PacketENRRequest = 5` is not
dispatched: `Decode` returns `unknown type: 5`, so the dispatched
enumeration has four kinds, not six. -/
theorem discv4_enr_request_tag_rejected :
    Discv4.decode (fun _ => List.replicate 32 0) (fun _ _ => .ok (List.replicate 65 7))
        (List.replicate 32 0 ++ List.replicate 65 0 ++ [5]) =
      ⟨List.replicate 32 0, none, Discv4.zeroNodeID, some (.unknownType 5),
        List.replicate 32 0 ++ List.replicate 65 0 ++ [5]⟩ ∧
    Discv4.PacketENRRequest = 5 := by
  exact ⟨by decide, rfl⟩

/-- Witness for C3 at a concrete packet with tag 9. -/
theorem discv4_dispatch_known_tags_witness :
    (Discv4.decode (fun _ => List.replicate 32 0) (fun _ _ => .ok (List.replicate 65 7))
        (List.replicate 32 0 ++ List.replicate 65 0 ++ [9])).err = some (.unknownType 9) :=
  ((discv4_dispatch_known_tags (fun _ => List.replicate 32 0)
      (fun _ _ => .ok (List.replicate 65 7)) (List.replicate 32 0) (List.replicate 65 0) []
      (List.replicate 65 7) 9 (by decide) (by decide) (by decide) rfl (by decide)).1).mpr
    (by decide)

/-- C4 (amended/corrected): `checkValid` itself distinguishes the two
conditions — a non-WHOAREYOU header with fewer than 48 bytes remaining
yields `errMsgTooShort`, and a declared auth-size larger than the
remaining bytes yields `errAuthSize` — but `Decode` discards the
specific error from `checkValid` and returns the generic
`errInvalidHeader`, which is what the caller receives in both cases. -/
theorem discv5_checkValid_specific_decode_generic (aesCtr : Discv5.KeyStream)
    (buf nid : List Nat) (h39 : 39 ≤ buf.length) :
    ((Discv5.parseStaticHeader (Discv5.unmaskedHeader aesCtr buf nid)).protocolID =
        Discv5.protocolID →
      Discv5.minVersion ≤ (Discv5.parseStaticHeader (Discv5.unmaskedHeader aesCtr buf nid)).version →
      (Discv5.parseStaticHeader (Discv5.unmaskedHeader aesCtr buf nid)).flag ≠ Discv5.flagWhoareyou →
      buf.length - Discv5.sizeofStaticPacketData < Discv5.minMessageSize →
      Discv5.checkValid (Discv5.parseStaticHeader (Discv5.unmaskedHeader aesCtr buf nid))
          (buf.length - Discv5.sizeofStaticPacketData) = some .msgTooShort ∧
        (Discv5.decode aesCtr buf nid).1 = .error .invalidHeader) ∧
    ((Discv5.parseStaticHeader (Discv5.unmaskedHeader aesCtr buf nid)).protocolID =
        Discv5.protocolID →
      Discv5.minVersion ≤ (Discv5.parseStaticHeader (Discv5.unmaskedHeader aesCtr buf nid)).version →
      ¬((Discv5.parseStaticHeader (Discv5.unmaskedHeader aesCtr buf nid)).flag ≠
          Discv5.flagWhoareyou ∧
        buf.length - Discv5.sizeofStaticPacketData < Discv5.minMessageSize) →
      buf.length - Discv5.sizeofStaticPacketData <
        (Discv5.parseStaticHeader (Discv5.unmaskedHeader aesCtr buf nid)).authSize →
      Discv5.checkValid (Discv5.parseStaticHeader (Discv5.unmaskedHeader aesCtr buf nid))
          (buf.length - Discv5.sizeofStaticPacketData) = some .authSize ∧
        (Discv5.decode aesCtr buf nid).1 = .error .invalidHeader) := by
  constructor
  · intro hp hv hf hrem
    have hcv : Discv5.checkValid (Discv5.parseStaticHeader (Discv5.unmaskedHeader aesCtr buf nid))
        (buf.length - Discv5.sizeofStaticPacketData) = some .msgTooShort := by
      unfold Discv5.checkValid
      rw [if_neg (not_ne_iff.mpr hp), if_neg (by omega), if_pos ⟨hf, hrem⟩]
    refine ⟨hcv, ?_⟩
    unfold Discv5.decode
    rw [if_neg (by simp only [Discv5.sizeofStaticPacketData, Discv5.sizeofMaskingIV,
      Discv5.sizeofStaticHeader]; omega)]
    dsimp only
    unfold Discv5.unmaskedHeader at hcv
    rw [hcv]
  · intro hp hv hf hrem
    have hcv : Discv5.checkValid (Discv5.parseStaticHeader (Discv5.unmaskedHeader aesCtr buf nid))
        (buf.length - Discv5.sizeofStaticPacketData) = some .authSize := by
      unfold Discv5.checkValid
      rw [if_neg (not_ne_iff.mpr hp), if_neg (by omega), if_neg hf, if_pos hrem]
    refine ⟨hcv, ?_⟩
    unfold Discv5.decode
    rw [if_neg (by simp only [Discv5.sizeofStaticPacketData, Discv5.sizeofMaskingIV,
      Discv5.sizeofStaticHeader]; omega)]
    dsimp only
    unfold Discv5.unmaskedHeader at hcv
    rw [hcv]

/-- C4 counterexample: a 39-byte discv5 packet (zero keystream, valid
protocol id and version, flag 0, zero bytes remaining after the static
header) makes `checkValid` produce `errMsgTooShort`, yet `Decode` hands
its caller the generic `errInvalidHeader`, not `errMsgTooShort`. -/
theorem discv5_short_message_generic_error :
    Discv5.checkValid (Discv5.parseStaticHeader
        ([100, 105, 115, 99, 118, 53, 0, 1, 0] ++ List.replicate 12 0 ++ [0, 0])) 0 =
      some .msgTooShort ∧
    (Discv5.decode (fun _ _ _ => 0)
        (List.replicate 16 0 ++
          ([100, 105, 115, 99, 118, 53, 0, 1, 0] ++ List.replicate 12 0 ++ [0, 0]))
        (List.replicate 32 0)).1 = .error .invalidHeader ∧
    Discv5.Err.invalidHeader ≠ Discv5.Err.msgTooShort := by
  decide

/-- Witness for C4 on concrete packets: one triggering the
message-too-short condition (flag 2, nothing after the header), one the
auth-size condition (flag 1, auth-size 5, nothing after the header). -/
theorem discv5_checkValid_specific_witness :
    (Discv5.checkValid (Discv5.parseStaticHeader (Discv5.unmaskedHeader (fun _ _ _ => 0)
        (List.replicate 16 0 ++
          ([100, 105, 115, 99, 118, 53, 0, 1, 2] ++ List.replicate 12 0 ++ [0, 0]))
        (List.replicate 32 0)))
        ((List.replicate 16 0 ++
          ([100, 105, 115, 99, 118, 53, 0, 1, 2] ++ List.replicate 12 0 ++ [0, 0])).length -
          Discv5.sizeofStaticPacketData) = some .msgTooShort ∧
      (Discv5.decode (fun _ _ _ => 0)
        (List.replicate 16 0 ++
          ([100, 105, 115, 99, 118, 53, 0, 1, 2] ++ List.replicate 12 0 ++ [0, 0]))
        (List.replicate 32 0)).1 = .error .invalidHeader) ∧
    (Discv5.checkValid (Discv5.parseStaticHeader (Discv5.unmaskedHeader (fun _ _ _ => 0)
        (List.replicate 16 0 ++
          ([100, 105, 115, 99, 118, 53, 0, 1, 1] ++ List.replicate 12 0 ++ [0, 5]))
        (List.replicate 32 0)))
        ((List.replicate 16 0 ++
          ([100, 105, 115, 99, 118, 53, 0, 1, 1] ++ List.replicate 12 0 ++ [0, 5])).length -
          Discv5.sizeofStaticPacketData) = some .authSize ∧
      (Discv5.decode (fun _ _ _ => 0)
        (List.replicate 16 0 ++
          ([100, 105, 115, 99, 118, 53, 0, 1, 1] ++ List.replicate 12 0 ++ [0, 5]))
        (List.replicate 32 0)).1 = .error .invalidHeader) :=
  ⟨(discv5_checkValid_specific_decode_generic (fun _ _ _ => 0) _ _ (by decide)).1
      (by decide) (by decide) (by decide) (by decide),
   (discv5_checkValid_specific_decode_generic (fun _ _ _ => 0) _ _ (by decide)).2
      (by decide) (by decide) (by decide) (by decide)⟩

/-- Witness for C5: a 98-byte zero buffer whose mac slot does not match
the (constant) hash oracle is reported as `bad hash`. -/
theorem discv4_badhash_iff_witness :
    (Discv4.decode (fun _ => List.replicate 32 1) (fun _ _ => .error 0)
        (List.replicate 98 0)).err = some .badHash :=
  (discv4_badhash_iff (fun _ => List.replicate 32 1) (fun _ _ => .error 0)
    (List.replicate 98 0) (by decide)).mpr (by decide)

/-- C6: the masking keystream — derived from the low 16 bytes of the
destination node id and the packet's IV — is an involution under
`XORKeyStream`, and hence discv5 `Decode` invoked with the same
destination id recovers, in the 23 header bytes of the buffer it hands
back, exactly the static-header bytes that were masked. -/
theorem discv5_masking_involution (aesCtr : Discv5.KeyStream) (iv hdr rest nid : List Nat)
    (hiv : iv.length = 16) (hhdr : hdr.length = 23) :
    (∀ off bs, Discv5.xorKeyStream (Discv5.mask aesCtr nid iv) off
        (Discv5.xorKeyStream (Discv5.mask aesCtr nid iv) off bs) = bs) ∧
    ((Discv5.decode aesCtr
          (iv ++ Discv5.xorKeyStream (Discv5.mask aesCtr nid iv) 0 hdr ++ rest) nid).2.drop
        Discv5.sizeofMaskingIV).take Discv5.sizeofStaticHeader = hdr := by
  refine ⟨fun off bs => xorKeyStream_involution _ off bs, ?_⟩
  have hmlen : (Discv5.xorKeyStream (Discv5.mask aesCtr nid iv) 0 hdr).length = 23 := by
    rw [xorKeyStream_length, hhdr]
  have hBlen : (iv ++ Discv5.xorKeyStream (Discv5.mask aesCtr nid iv) 0 hdr ++ rest).length =
      39 + rest.length := by
    simp only [List.length_append, hiv, hmlen]
  unfold Discv5.decode
  rw [if_neg (by rw [hBlen]; simp [Discv5.sizeofStaticPacketData, Discv5.sizeofMaskingIV,
    Discv5.sizeofStaticHeader])]
  dsimp only
  have htake16 : (iv ++ Discv5.xorKeyStream (Discv5.mask aesCtr nid iv) 0 hdr ++ rest).take
      Discv5.sizeofMaskingIV = iv := by
    rw [List.append_assoc]
    exact List.take_left' (by rw [hiv]; rfl)
  have hdrop16 : (iv ++ Discv5.xorKeyStream (Discv5.mask aesCtr nid iv) 0 hdr ++ rest).drop
      Discv5.sizeofMaskingIV = Discv5.xorKeyStream (Discv5.mask aesCtr nid iv) 0 hdr ++ rest := by
    rw [List.append_assoc]
    exact List.drop_left' (by rw [hiv]; rfl)
  rw [htake16, hdrop16, List.take_left' (by rw [hmlen]; rfl), xorKeyStream_involution]
  cases hcv : Discv5.checkValid (Discv5.parseStaticHeader hdr)
      ((iv ++ Discv5.xorKeyStream (Discv5.mask aesCtr nid iv) 0 hdr ++ rest).length -
        Discv5.sizeofStaticPacketData) with
  | some e =>
    dsimp only
    rw [List.append_assoc iv hdr]
    rw [List.drop_left' (by rw [hiv]; rfl), List.take_left' (by rw [hhdr]; rfl)]
  | none =>
    dsimp only
    rw [List.take_left' (show (iv ++ hdr).length = Discv5.sizeofStaticPacketData by
      rw [List.length_append, hiv, hhdr]; rfl)]
    rw [List.append_assoc (iv ++ hdr), List.append_assoc iv hdr]
    rw [List.drop_left' (by rw [hiv]; rfl), List.take_left' (by rw [hhdr]; rfl)]

/-- Witness for C6: a concrete nonzero keystream, IV, header and
destination id round-trip to the original header bytes. -/
theorem discv5_masking_involution_witness :
    ((Discv5.decode (fun _ _ i => i + 1)
          (List.replicate 16 2 ++
            Discv5.xorKeyStream (Discv5.mask (fun _ _ i => i + 1) (List.replicate 32 4)
              (List.replicate 16 2)) 0
              ([100, 105, 115, 99, 118, 53, 0, 1, 0] ++ List.replicate 12 7 ++ [0, 3]) ++
            List.replicate 48 9)
          (List.replicate 32 4)).2.drop Discv5.sizeofMaskingIV).take Discv5.sizeofStaticHeader =
      [100, 105, 115, 99, 118, 53, 0, 1, 0] ++ List.replicate 12 7 ++ [0, 3] :=
  (discv5_masking_involution (fun _ _ i => i + 1) (List.replicate 16 2)
    ([100, 105, 115, 99, 118, 53, 0, 1, 0] ++ List.replicate 12 7 ++ [0, 3])
    (List.replicate 48 9) (List.replicate 32 4) (by decide) (by decide)).2

/-- C10: discv4 `Decode` never writes to the caller's buffer, while
discv5 `Decode` mutates it in place: for any buffer of at least 39
bytes the 23 static-header bytes come back unmasked even when header
validation fails, and when validation passes the `auth-size` bytes after
them come back unmasked as well — while the call still returns an error
(`errInvalidHeader` or the placeholder `TODO`). -/
theorem decode_buffer_effects :
    (∀ (k : List Nat → List Nat) (r : List Nat → List Nat → Except Nat (List Nat))
      (b : List Nat), (Discv4.decode k r b).buf = b) ∧
    (∀ (aesCtr : Discv5.KeyStream) (buf nid : List Nat), 39 ≤ buf.length →
      ∃ e buf2, Discv5.decode aesCtr buf nid = (.error e, buf2) ∧
        buf2.take Discv5.sizeofMaskingIV = buf.take Discv5.sizeofMaskingIV ∧
        (buf2.drop Discv5.sizeofMaskingIV).take Discv5.sizeofStaticHeader =
          Discv5.unmaskedHeader aesCtr buf nid ∧
        (match Discv5.checkValid (Discv5.parseStaticHeader (Discv5.unmaskedHeader aesCtr buf nid))
            (buf.length - Discv5.sizeofStaticPacketData) with
         | some _ => e = .invalidHeader ∧
             buf2.drop Discv5.sizeofStaticPacketData = buf.drop Discv5.sizeofStaticPacketData
         | none => e = .todo ∧
             (buf2.drop Discv5.sizeofStaticPacketData).take
                 (Discv5.parseStaticHeader (Discv5.unmaskedHeader aesCtr buf nid)).authSize =
               Discv5.xorKeyStream (Discv5.mask aesCtr nid (buf.take Discv5.sizeofMaskingIV))
                 Discv5.sizeofStaticHeader
                 ((buf.drop Discv5.sizeofStaticPacketData).take
                   (Discv5.parseStaticHeader (Discv5.unmaskedHeader aesCtr buf nid)).authSize) ∧
             buf2.drop (Discv5.sizeofStaticPacketData +
                 (Discv5.parseStaticHeader (Discv5.unmaskedHeader aesCtr buf nid)).authSize) =
               buf.drop (Discv5.sizeofStaticPacketData +
                 (Discv5.parseStaticHeader (Discv5.unmaskedHeader aesCtr buf nid)).authSize))) := by
  constructor
  · intro k r b
    unfold Discv4.decode
    by_cases h1 : b.length < Discv4.headSize + 1
    · rw [if_pos h1]
    · rw [if_neg h1]
      by_cases h2 : b.take Discv4.macSize ≠ k (b.drop Discv4.macSize)
      · rw [if_pos h2]
      · rw [if_neg h2]
        cases Discv4.recoverNodeID r (k (b.drop Discv4.headSize))
            ((b.drop Discv4.macSize).take Discv4.sigSize) with
        | error e => rfl
        | ok fromID =>
          dsimp only
          cases Discv4.decodeBody ((b.drop Discv4.headSize).headD 0)
              (List.drop 1 (b.drop Discv4.headSize)) with
          | none => rfl
          | some x => cases x <;> rfl
  · intro aesCtr buf nid h39
    unfold Discv5.decode
    rw [if_neg (by simp only [Discv5.sizeofStaticPacketData, Discv5.sizeofMaskingIV,
      Discv5.sizeofStaticHeader]; omega)]
    dsimp only
    simp only [Discv5.unmaskedHeader]
    set u := Discv5.xorKeyStream (Discv5.mask aesCtr nid (buf.take Discv5.sizeofMaskingIV)) 0
      ((buf.drop Discv5.sizeofMaskingIV).take Discv5.sizeofStaticHeader) with hu
    have hulen : u.length = Discv5.sizeofStaticHeader := by
      rw [hu, xorKeyStream_length, List.length_take, List.length_drop]
      simp only [Discv5.sizeofMaskingIV, Discv5.sizeofStaticHeader,
        Discv5.sizeofStaticPacketData] at h39 ⊢
      omega
    have htlen : (buf.take Discv5.sizeofMaskingIV).length = Discv5.sizeofMaskingIV := by
      rw [List.length_take]
      simp only [Discv5.sizeofMaskingIV, Discv5.sizeofStaticPacketData,
        Discv5.sizeofStaticHeader] at h39 ⊢
      omega
    have hpairlen : (buf.take Discv5.sizeofMaskingIV ++ u).length =
        Discv5.sizeofStaticPacketData := by
      rw [List.length_append, htlen, hulen]
      rfl
    have hD39 : (buf.take Discv5.sizeofMaskingIV ++ u ++
        buf.drop Discv5.sizeofStaticPacketData).drop Discv5.sizeofStaticPacketData =
        buf.drop Discv5.sizeofStaticPacketData := List.drop_left' hpairlen
    have drop_pre : ∀ (pre X : List Nat) (m : Nat),
        pre.length = Discv5.sizeofStaticPacketData →
        (pre ++ X).drop (Discv5.sizeofStaticPacketData + m) = X.drop m := by
      intro pre X m hpre
      rw [← hpre, List.drop_append]
    cases hcv : Discv5.checkValid (Discv5.parseStaticHeader u)
        (buf.length - Discv5.sizeofStaticPacketData) with
    | some e' =>
      refine ⟨.invalidHeader, _, rfl, ?_, ?_, ⟨rfl, hD39⟩⟩
      · rw [List.append_assoc]
        exact List.take_left' htlen
      · rw [List.append_assoc, List.drop_left' htlen]
        exact List.take_left' hulen
    | none =>
      have has := checkValid_none_authSize _ _ hcv
      have hT39 : (buf.take Discv5.sizeofMaskingIV ++ u ++
          buf.drop Discv5.sizeofStaticPacketData).take Discv5.sizeofStaticPacketData =
          buf.take Discv5.sizeofMaskingIV ++ u := List.take_left' hpairlen
      have hA1len : (Discv5.xorKeyStream (Discv5.mask aesCtr nid
          (buf.take Discv5.sizeofMaskingIV)) Discv5.sizeofStaticHeader
          ((buf.drop Discv5.sizeofStaticPacketData).take
            (Discv5.parseStaticHeader u).authSize)).length =
          (Discv5.parseStaticHeader u).authSize := by
        rw [xorKeyStream_length, List.length_take, List.length_drop]
        omega
      refine ⟨.todo, _, rfl, ?_, ?_, ⟨rfl, ?_, ?_⟩⟩
      · rw [hT39, List.append_assoc, List.append_assoc]
        exact List.take_left' htlen
      · rw [hT39, List.append_assoc, List.append_assoc, List.drop_left' htlen,
          List.append_assoc]
        rw [List.take_append_of_le_length (le_of_eq hulen.symm)]
        exact List.take_of_length_le (le_of_eq hulen)
      · rw [hT39, List.append_assoc, List.drop_left' hpairlen, hD39]
        rw [List.take_append_of_le_length (le_of_eq hA1len.symm)]
        exact List.take_of_length_le (le_of_eq hA1len)
      · rw [hT39, List.append_assoc]
        rw [drop_pre _ _ _ hpairlen, hD39]
        rw [List.drop_left' hA1len]
        rw [drop_pre _ _ _ hpairlen, List.drop_drop]

/-- Witness for C10: discv4 leaves a 3-byte buffer untouched, and a
39-byte discv5 packet exhibits the stated buffer effects. -/
theorem decode_buffer_effects_witness :
    (Discv4.decode (fun _ => []) (fun _ _ => .error 0) [1, 2, 3]).buf = [1, 2, 3] ∧
    (∃ e buf2, Discv5.decode (fun _ _ _ => 0) (List.replicate 39 1) (List.replicate 32 0) =
        (.error e, buf2) ∧
      buf2.take Discv5.sizeofMaskingIV = (List.replicate 39 1).take Discv5.sizeofMaskingIV ∧
      (buf2.drop Discv5.sizeofMaskingIV).take Discv5.sizeofStaticHeader =
        Discv5.unmaskedHeader (fun _ _ _ => 0) (List.replicate 39 1) (List.replicate 32 0) ∧
      (match Discv5.checkValid (Discv5.parseStaticHeader
          (Discv5.unmaskedHeader (fun _ _ _ => 0) (List.replicate 39 1) (List.replicate 32 0)))
          ((List.replicate 39 1).length - Discv5.sizeofStaticPacketData) with
       | some _ => e = .invalidHeader ∧
           buf2.drop Discv5.sizeofStaticPacketData =
             (List.replicate 39 1).drop Discv5.sizeofStaticPacketData
       | none => e = .todo ∧
           (buf2.drop Discv5.sizeofStaticPacketData).take
               (Discv5.parseStaticHeader (Discv5.unmaskedHeader (fun _ _ _ => 0)
                 (List.replicate 39 1) (List.replicate 32 0))).authSize =
             Discv5.xorKeyStream (Discv5.mask (fun _ _ _ => 0) (List.replicate 32 0)
               ((List.replicate 39 1).take Discv5.sizeofMaskingIV))
               Discv5.sizeofStaticHeader
               (((List.replicate 39 1).drop Discv5.sizeofStaticPacketData).take
                 (Discv5.parseStaticHeader (Discv5.unmaskedHeader (fun _ _ _ => 0)
                   (List.replicate 39 1) (List.replicate 32 0))).authSize) ∧
           buf2.drop (Discv5.sizeofStaticPacketData +
               (Discv5.parseStaticHeader (Discv5.unmaskedHeader (fun _ _ _ => 0)
                 (List.replicate 39 1) (List.replicate 32 0))).authSize) =
             (List.replicate 39 1).drop (Discv5.sizeofStaticPacketData +
               (Discv5.parseStaticHeader (Discv5.unmaskedHeader (fun _ _ _ => 0)
                 (List.replicate 39 1) (List.replicate 32 0))).authSize))) :=
  ⟨decode_buffer_effects.1 (fun _ => []) (fun _ _ => .error 0) [1, 2, 3],
   decode_buffer_effects.2 (fun _ _ _ => 0) (List.replicate 39 1) (List.replicate 32 0)
     (by decide)⟩

/-- C8: for each of the four dispatched kinds, a packet passing the
length, hash, recovery and tag checks whose body encodes the required
fields followed by any number of extra well-formed trailing items
decodes with no error, the extras landing verbatim and in order in the
variant's `Rest` slot; a body missing its last required field, or whose
required field has the wrong shape, yields an rlp error. -/
theorem discv4_decode_roundtrip_tail :
    (∀ (k : List Nat → List Nat) (r : List Nat → List Nat → Except Nat (List Nat))
      (mac sig pk : List Nat) (v : Nat) (f t : Discv4.RpcEndpoint) (e : Nat)
      (extras : List (List Nat)),
      mac.length = 32 → sig.length = 65 →
      k (sig ++ 1 :: Discv4.encPingBody v f t e extras) = mac →
      r (k (1 :: Discv4.encPingBody v f t e extras)) sig = .ok pk → pk.length = 65 →
      v < 2 ^ 64 → Discv4.EpOK f → Discv4.EpOK t → e < 2 ^ 64 → Discv4.ExtrasOK extras →
      Discv4.decode k r (mac ++ sig ++ 1 :: Discv4.encPingBody v f t e extras) =
        ⟨mac, some (.ping ⟨v, f, t, e, extras⟩), (pk.drop 1).take 64, none,
          mac ++ sig ++ 1 :: Discv4.encPingBody v f t e extras⟩) ∧
    (∀ (k : List Nat → List Nat) (r : List Nat → List Nat → Except Nat (List Nat))
      (mac sig pk : List Nat) (t : Discv4.RpcEndpoint) (tok : List Nat) (e : Nat)
      (extras : List (List Nat)),
      mac.length = 32 → sig.length = 65 →
      k (sig ++ 2 :: Discv4.encPongBody t tok e extras) = mac →
      r (k (2 :: Discv4.encPongBody t tok e extras)) sig = .ok pk → pk.length = 65 →
      Discv4.EpOK t → tok.length < 2 ^ 32 → e < 2 ^ 64 → Discv4.ExtrasOK extras →
      Discv4.decode k r (mac ++ sig ++ 2 :: Discv4.encPongBody t tok e extras) =
        ⟨mac, some (.pong ⟨t, tok, e, extras⟩), (pk.drop 1).take 64, none,
          mac ++ sig ++ 2 :: Discv4.encPongBody t tok e extras⟩) ∧
    (∀ (k : List Nat → List Nat) (r : List Nat → List Nat → Except Nat (List Nat))
      (mac sig pk tg : List Nat) (e : Nat) (extras : List (List Nat)),
      mac.length = 32 → sig.length = 65 →
      k (sig ++ 3 :: Discv4.encFindNodeBody tg e extras) = mac →
      r (k (3 :: Discv4.encFindNodeBody tg e extras)) sig = .ok pk → pk.length = 65 →
      tg.length = 64 → e < 2 ^ 64 → Discv4.ExtrasOK extras →
      Discv4.decode k r (mac ++ sig ++ 3 :: Discv4.encFindNodeBody tg e extras) =
        ⟨mac, some (.findNode ⟨tg, e, extras⟩), (pk.drop 1).take 64, none,
          mac ++ sig ++ 3 :: Discv4.encFindNodeBody tg e extras⟩) ∧
    (∀ (k : List Nat → List Nat) (r : List Nat → List Nat → Except Nat (List Nat))
      (mac sig pk : List Nat) (ns : List Discv4.RpcNode) (e : Nat) (extras : List (List Nat)),
      mac.length = 32 → sig.length = 65 →
      k (sig ++ 4 :: Discv4.encNeighborsBody ns e extras) = mac →
      r (k (4 :: Discv4.encNeighborsBody ns e extras)) sig = .ok pk → pk.length = 65 →
      (∀ n ∈ ns, Discv4.NodeOK n) → (ns.map Discv4.encNode).flatten.length < 2 ^ 60 →
      e < 2 ^ 64 → Discv4.ExtrasOK extras →
      Discv4.decode k r (mac ++ sig ++ 4 :: Discv4.encNeighborsBody ns e extras) =
        ⟨mac, some (.neighbors ⟨ns, e, extras⟩), (pk.drop 1).take 64, none,
          mac ++ sig ++ 4 :: Discv4.encNeighborsBody ns e extras⟩) ∧
    (∀ (k : List Nat → List Nat) (r : List Nat → List Nat → Except Nat (List Nat))
      (mac sig pk : List Nat) (v : Nat) (f t : Discv4.RpcEndpoint),
      mac.length = 32 → sig.length = 65 →
      k (sig ++ 1 :: Rlp.encList [Rlp.encUint v, Discv4.encEndpoint f,
        Discv4.encEndpoint t]) = mac →
      r (k (1 :: Rlp.encList [Rlp.encUint v, Discv4.encEndpoint f,
        Discv4.encEndpoint t])) sig = .ok pk → pk.length = 65 →
      v < 2 ^ 64 → Discv4.EpOK f → Discv4.EpOK t →
      (Discv4.decode k r (mac ++ sig ++ 1 :: Rlp.encList [Rlp.encUint v,
        Discv4.encEndpoint f, Discv4.encEndpoint t])).err = some (.rlpError .eol)) ∧
    (∀ (k : List Nat → List Nat) (r : List Nat → List Nat → Except Nat (List Nat))
      (mac sig pk : List Nat) (t : Discv4.RpcEndpoint) (tok : List Nat),
      mac.length = 32 → sig.length = 65 →
      k (sig ++ 2 :: Rlp.encList [Discv4.encEndpoint t, Rlp.encBytes tok]) = mac →
      r (k (2 :: Rlp.encList [Discv4.encEndpoint t, Rlp.encBytes tok])) sig = .ok pk →
      pk.length = 65 → Discv4.EpOK t → tok.length < 2 ^ 32 →
      (Discv4.decode k r (mac ++ sig ++ 2 :: Rlp.encList [Discv4.encEndpoint t,
        Rlp.encBytes tok])).err = some (.rlpError .eol)) ∧
    (∀ (k : List Nat → List Nat) (r : List Nat → List Nat → Except Nat (List Nat))
      (mac sig pk tg : List Nat),
      mac.length = 32 → sig.length = 65 →
      k (sig ++ 3 :: Rlp.encList [Rlp.encBytes tg]) = mac →
      r (k (3 :: Rlp.encList [Rlp.encBytes tg])) sig = .ok pk → pk.length = 65 →
      tg.length = 64 →
      (Discv4.decode k r (mac ++ sig ++ 3 :: Rlp.encList [Rlp.encBytes tg])).err =
        some (.rlpError .eol)) ∧
    (∀ (k : List Nat → List Nat) (r : List Nat → List Nat → Except Nat (List Nat))
      (mac sig pk : List Nat) (ns : List Discv4.RpcNode),
      mac.length = 32 → sig.length = 65 →
      k (sig ++ 4 :: Rlp.encList [Rlp.encList (ns.map Discv4.encNode)]) = mac →
      r (k (4 :: Rlp.encList [Rlp.encList (ns.map Discv4.encNode)])) sig = .ok pk →
      pk.length = 65 → (∀ n ∈ ns, Discv4.NodeOK n) →
      (ns.map Discv4.encNode).flatten.length < 2 ^ 60 →
      (Discv4.decode k r (mac ++ sig ++ 4 :: Rlp.encList [Rlp.encList
        (ns.map Discv4.encNode)])).err = some (.rlpError .eol)) ∧
    (∀ (k : List Nat → List Nat) (r : List Nat → List Nat → Except Nat (List Nat))
      (mac sig pk : List Nat) (v : Nat) (f t : Discv4.RpcEndpoint) (items : List (List Nat)),
      mac.length = 32 → sig.length = 65 →
      k (sig ++ 1 :: Rlp.encList [Rlp.encUint v, Discv4.encEndpoint f, Discv4.encEndpoint t,
        Rlp.encList items]) = mac →
      r (k (1 :: Rlp.encList [Rlp.encUint v, Discv4.encEndpoint f, Discv4.encEndpoint t,
        Rlp.encList items])) sig = .ok pk → pk.length = 65 →
      v < 2 ^ 64 → Discv4.EpOK f → Discv4.EpOK t → items.flatten.length < 2 ^ 60 →
      (Discv4.decode k r (mac ++ sig ++ 1 :: Rlp.encList [Rlp.encUint v,
        Discv4.encEndpoint f, Discv4.encEndpoint t, Rlp.encList items])).err =
        some (.rlpError .expectedString)) := by
  refine ⟨?_, ?_, ?_, ?_, ?_, ?_, ?_, ?_, ?_⟩
  · intro k r mac sig pk v f t e extras hm hs hhash hr hpk hv hf ht he hx
    rw [decode_unfold k r mac sig _ 1 hm hs hhash, recoverNodeID_ok r _ sig pk hr hpk]
    dsimp only
    simp only [Discv4.decodeBody, pingDecode_enc v f t e extras hv hf ht he hx, Except.map]
  · intro k r mac sig pk t tok e extras hm hs hhash hr hpk ht htok he hx
    rw [decode_unfold k r mac sig _ 2 hm hs hhash, recoverNodeID_ok r _ sig pk hr hpk]
    dsimp only
    simp only [Discv4.decodeBody, pongDecode_enc t tok e extras ht htok he hx, Except.map]
  · intro k r mac sig pk tg e extras hm hs hhash hr hpk htg he hx
    rw [decode_unfold k r mac sig _ 3 hm hs hhash, recoverNodeID_ok r _ sig pk hr hpk]
    dsimp only
    simp only [Discv4.decodeBody, findNodeDecode_enc tg e extras htg he hx, Except.map]
  · intro k r mac sig pk ns e extras hm hs hhash hr hpk hns hlen he hx
    rw [decode_unfold k r mac sig _ 4 hm hs hhash, recoverNodeID_ok r _ sig pk hr hpk]
    dsimp only
    simp only [Discv4.decodeBody, neighborsDecode_enc ns e extras hns hlen he hx, Except.map]
  · intro k r mac sig pk v f t hm hs hhash hr hpk hv hf ht
    rw [decode_unfold k r mac sig _ 1 hm hs hhash, recoverNodeID_ok r _ sig pk hr hpk]
    dsimp only
    simp only [Discv4.decodeBody, pingDecode_missing v f t hv hf ht, Except.map]
  · intro k r mac sig pk t tok hm hs hhash hr hpk ht htok
    rw [decode_unfold k r mac sig _ 2 hm hs hhash, recoverNodeID_ok r _ sig pk hr hpk]
    dsimp only
    simp only [Discv4.decodeBody, pongDecode_missing t tok ht htok, Except.map]
  · intro k r mac sig pk tg hm hs hhash hr hpk htg
    rw [decode_unfold k r mac sig _ 3 hm hs hhash, recoverNodeID_ok r _ sig pk hr hpk]
    dsimp only
    simp only [Discv4.decodeBody, findNodeDecode_missing tg htg, Except.map]
  · intro k r mac sig pk ns hm hs hhash hr hpk hns hlen
    rw [decode_unfold k r mac sig _ 4 hm hs hhash, recoverNodeID_ok r _ sig pk hr hpk]
    dsimp only
    simp only [Discv4.decodeBody, neighborsDecode_missing ns hns hlen, Except.map]
  · intro k r mac sig pk v f t items hm hs hhash hr hpk hv hf ht hit
    rw [decode_unfold k r mac sig _ 1 hm hs hhash, recoverNodeID_ok r _ sig pk hr hpk]
    dsimp only
    simp only [Discv4.decodeBody, pingDecode_malformed v f t items hv hf ht hit, Except.map]

/-- Witness for C8: a concrete PING packet with two extra trailing
items decodes successfully, the extras captured in `Rest`. -/
theorem discv4_decode_roundtrip_tail_witness :
    Discv4.decode (fun _ => List.replicate 32 0) (fun _ _ => .ok (0 :: List.replicate 64 9))
        (List.replicate 32 0 ++ List.replicate 65 0 ++
          1 :: Discv4.encPingBody 4 ⟨[0, 0, 0, 0], 0, 0⟩ ⟨[0, 0, 0, 0], 0, 0⟩ 1000
            [[5], [130, 200, 201]]) =
      ⟨List.replicate 32 0,
        some (.ping ⟨4, ⟨[0, 0, 0, 0], 0, 0⟩, ⟨[0, 0, 0, 0], 0, 0⟩, 1000,
          [[5], [130, 200, 201]]⟩),
        ((0 :: List.replicate 64 9).drop 1).take 64, none,
        List.replicate 32 0 ++ List.replicate 65 0 ++
          1 :: Discv4.encPingBody 4 ⟨[0, 0, 0, 0], 0, 0⟩ ⟨[0, 0, 0, 0], 0, 0⟩ 1000
            [[5], [130, 200, 201]]⟩ :=
  discv4_decode_roundtrip_tail.1 (fun _ => List.replicate 32 0)
    (fun _ _ => .ok (0 :: List.replicate 64 9)) (List.replicate 32 0) (List.replicate 65 0)
    (0 :: List.replicate 64 9) 4 ⟨[0, 0, 0, 0], 0, 0⟩ ⟨[0, 0, 0, 0], 0, 0⟩ 1000
    [[5], [130, 200, 201]] (by decide) (by decide) rfl rfl (by decide) (by decide)
    (by decide) (by decide) (by decide) (by decide)
